import Mathlib

/-!
Verification development for the model-evaluator tool
(`src/tools/model-evaluator/main.py`).

The Python program is shallowly embedded: pure functions become Lean
functions over `ℚ` (Python floats are modelled as exact rationals),
fallible code returns `Except String`, and the SQLite tables become an
explicit `DB` record threaded through the operations.  The embedded
definitions keep the source's names.  The `math.log1p` transform is
transcendental, so the scoring pipeline is parameterised by a function
`L : ℚ → ℚ` interpreting `math.log1p`; theorems that depend on concrete
properties of `log1p` take those properties (strict monotonicity at the
relevant points) as hypotheses.
-/

namespace ModelRater

/-- Embeds `clamp01` (main.py:277): `max(0.0, min(1.0, x))`. -/
def clamp01 (x : ℚ) : ℚ := max 0 (min 1 x)

/-- Python truthiness of an optional string (`if transform:`):
`None` and the empty string are falsy. -/
def truthy : Option String → Bool
  | none => false
  | some s => !(s == "")

/-- Embeds `transform_value` (main.py:281-288).  `L` interprets
`math.log1p`; the code applies it to `max(0.0, x)`.  An unknown
transform name raises `ValueError`, embedded as `Except.error`. -/
def transform_value (L : ℚ → ℚ) (t : Option String) (x : ℚ) : Except String ℚ :=
  match t with
  | none => .ok x
  | some "log1p" => .ok (L (max 0 x))
  | some "cap_10" => .ok (min 10 (max 0 x))
  | some s => .error ("Unknown transform: " ++ s)

/-- The `scale` field of a MetricSpec: a string (`"unit"`, `"binary"`) or
a `{min, max}` dict. -/
inductive ScaleV where
  | name (s : String)
  | mm (mn mx : ℚ)
deriving DecidableEq, Repr

/-- A MetricSpec of a Standard (one entry of a category's `metrics` or
`fallbacks` list). `better` and `transform` are optional as in the
Python dicts. -/
structure MetricSpec where
  key : String
  better : Option String := some "higher"
  weight : ℚ := 1
  transform : Option String := none
  scale : Option ScaleV := none
deriving DecidableEq, Repr

/-- One category of a Standard. -/
structure Category where
  metrics : List MetricSpec := []
  fallbacks : List MetricSpec := []
deriving DecidableEq, Repr

/-- A scoring Standard (`DEFAULT_STANDARD`-shaped config). -/
structure Standard where
  name : String
  categories : List (String × Category)
  fallback_confidence_multiplier : Option ℚ := none
deriving DecidableEq, Repr

/-- `float(standard.get("fallback_confidence_multiplier", 0.33))`
(main.py:1663). -/
def Standard.fcm (std : Standard) : ℚ :=
  std.fallback_confidence_multiplier.getD (33/100)

/-- A row of the `models` table (main.py schema, lines 530-590). -/
structure ModelRow where
  id : Nat
  display_name : String
  provider : String
  provider_id : String
  openrouter_id : Option String := none
  hf_repo_id : Option String := none
deriving DecidableEq, Repr

/-- Key of a `scores` row: `(model_id, standard_id, category)`. -/
abbrev ScoreKey := Nat × Nat × String

/-- One used-metric entry of `details_json["used"]`
(main.py:1693). -/
structure UsedEntry where
  key : String
  raw : ℚ
  norm : ℚ
  weight : ℚ
  norm_params : Option (ℚ × ℚ × Option String × Option String × Option ScaleV)
deriving DecidableEq, Repr

/-- The `details_json` object stored with a score (main.py:1695-1713). -/
structure Details where
  used : List UsedEntry
  note : Option String := none
  used_fallback : Bool := false
deriving DecidableEq, Repr

/-- Value of a `scores` row: `(score, confidence, details)`.
`computed_at` timestamps are not modelled. -/
abbrev ScoreVal := ℚ × ℚ × Details

/-- The relational store: `models`, `raw_metrics` (rows
`(model_id, key, value)`; units are not modelled), `standards`
(identity by config content, modelling the collision-free
`config_hash`), and `scores` as a map keyed per §schema. -/
structure DB where
  models : List ModelRow
  raw_metrics : List (Nat × String × ℚ)
  standards : List (Nat × Standard)
  scores : ScoreKey → Option ScoreVal

/-- The empty store. -/
def DB.empty : DB := ⟨[], [], [], fun _ => none⟩

/-- Embeds `get_metric_values` (main.py:1488-1490):
`SELECT value FROM raw_metrics WHERE key=?`. -/
def get_metric_values (raws : List (Nat × String × ℚ)) (key : String) : List ℚ :=
  (raws.filter (fun r => r.2.1 == key)).map (fun r => r.2.2)

/-- Embeds `model_metric` (main.py:1651-1655):
`SELECT value FROM raw_metrics WHERE model_id=? AND key=?`. -/
def model_metric (raws : List (Nat × String × ℚ)) (mid : Nat) (key : String) : Option ℚ :=
  (raws.find? (fun r => r.1 == mid && r.2.1 == key)).map (fun r => r.2.2)

/-- Embeds the `ON CONFLICT(model_id, key) DO UPDATE` upsert of
`upsert_metric` (main.py:642-654): replace the matching row in place,
else append. -/
def upsert_metric (raws : List (Nat × String × ℚ)) (mid : Nat) (key : String) (v : ℚ) :
    List (Nat × String × ℚ) :=
  if raws.any (fun r => r.1 == mid && r.2.1 == key) then
    raws.map (fun r => if r.1 == mid && r.2.1 == key then (mid, key, v) else r)
  else
    raws ++ [(mid, key, v)]

/-- Python's `min` over a nonempty list (head as seed). -/
def listMin : List ℚ → ℚ
  | [] => 0
  | h :: t => t.foldl min h

/-- Python's `max` over a nonempty list (head as seed). -/
def listMax : List ℚ → ℚ
  | [] => 0
  | h :: t => t.foldl max h

/-- The `1e-12` degeneracy threshold of main.py:1630/1641. -/
def eps12 : ℚ := 1 / 1000000000000

/-- Embeds `fixed_scale_params` (main.py:1493-1512). -/
def fixed_scale_params (L : ℚ → ℚ) (spec : MetricSpec) : Except String (Option (ℚ × ℚ)) :=
  match spec.scale with
  | some (.name s) =>
    if s = "binary" ∨ s = "unit" then
      if truthy spec.transform then do
        let a ← transform_value L spec.transform 0
        let b ← transform_value L spec.transform 1
        pure (some (a, b))
      else pure (some (0, 1))
    else pure none
  | some (.mm mn mx) =>
    if truthy spec.transform then do
      let a ← transform_value L spec.transform mn
      let b ← transform_value L spec.transform mx
      pure (some (a, b))
    else pure (some (mn, mx))
  | none => pure none

/-- Embeds `benchmark_scale_override` (main.py:1583-1609).  The min/max
pairs that the code derives from the downloaded Arena and BigCodeBench
datasets are supplied as oracles `arenaMM` and `bcbMM` (network inputs:
`arena_elo_min_max`, `bigcodebench_score_min_max`). -/
def benchmark_scale_override (L : ℚ → ℚ) (arenaMM : Option (ℚ × ℚ))
    (bcbMM : String → Option (ℚ × ℚ)) (spec : MetricSpec) :
    Except String (Option (ℚ × ℚ)) :=
  if spec.key = "arena_score" then
    match arenaMM with
    | none => pure none
    | some (mn, mx) =>
      if truthy spec.transform then do
        let a ← transform_value L spec.transform mn
        let b ← transform_value L spec.transform mx
        pure (some (a, b))
      else pure (some (mn, mx))
  else if spec.key = "bigcodebench_instruct" ∨ spec.key = "bigcodebench_complete" then
    match bcbMM spec.key with
    | none => pure none
    | some (mn, mx) =>
      if truthy spec.transform then do
        let a ← transform_value L spec.transform mn
        let b ← transform_value L spec.transform mx
        pure (some (a, b))
      else pure (some (mn, mx))
  else pure none

/-- The cohort-derived branch of `compute_norm_params`
(main.py:1624-1632). -/
def cohort_params (L : ℚ → ℚ) (raws : List (Nat × String × ℚ)) (spec : MetricSpec) :
    Except String (Option (ℚ × ℚ)) := do
  let vals := get_metric_values raws spec.key
  if vals.length < 2 then pure none
  else
    let tv ← vals.mapM (transform_value L spec.transform)
    let mn := listMin tv
    let mx := listMax tv
    if |mx - mn| < eps12 then pure none else pure (some (mn, mx))

/-- Embeds `compute_norm_params` (main.py:1612-1632): benchmark
override, then declared fixed scale (both skipped for the always
cohort-relative `cost_usd_per_1m_mixed`), then cohort min/max. -/
def compute_norm_params (L : ℚ → ℚ) (arenaMM : Option (ℚ × ℚ))
    (bcbMM : String → Option (ℚ × ℚ)) (raws : List (Nat × String × ℚ))
    (spec : MetricSpec) : Except String (Option (ℚ × ℚ)) := do
  let pre ←
    if spec.key = "cost_usd_per_1m_mixed" then pure none
    else do
      match ← benchmark_scale_override L arenaMM bcbMM spec with
      | some p => pure (some p)
      | none => fixed_scale_params L spec
  match pre with
  | some p => pure (some p)
  | none => cohort_params L raws spec

/-- Embeds `normalize_value` (main.py:1635-1648). -/
def normalize_value (L : ℚ → ℚ) (spec : MetricSpec) (params : ℚ × ℚ) (x : ℚ) :
    Except String ℚ := do
  let tx ← transform_value L spec.transform x
  let mn := params.1
  let mx := params.2
  if |mx - mn| < eps12 then pure (1/2)
  else
    let n := clamp01 ((tx - mn) / (mx - mn))
    let n := if spec.better.getD "higher" = "lower" then 1 - n else n
    pure (clamp01 n)

/-- Association-list lookup by string key (models Python dict access
`norm_params[key]` / the `key not in norm_params` test). -/
def lookupKey {α : Type} (l : List (String × α)) (k : String) : Option α :=
  (l.find? (fun p => p.1 == k)).map (·.2)

/-- The per-spec body of the loop in `compute_from_specs`
(main.py:1673-1693): `None` when the model has no raw value for the
key; otherwise the raw value together with the normalized contribution
(0.5 when no normalization parameters exist for the key) and the
`norm_params` blob recorded in the `used` entry. -/
def normContrib (L : ℚ → ℚ) (np : List (String × (ℚ × ℚ)))
    (raws : List (Nat × String × ℚ)) (mid : Nat) (spec : MetricSpec) :
    Except String (Option UsedEntry) :=
  match model_metric raws mid spec.key with
  | none => pure none
  | some raw =>
    match lookupKey np spec.key with
    | none => pure (some ⟨spec.key, raw, 1/2, spec.weight, none⟩)
    | some p => do
      let n ← normalize_value L spec p raw
      pure (some ⟨spec.key, raw, n, spec.weight,
        some (p.1, p.2, spec.transform, spec.better, spec.scale)⟩)

/-- The accumulating loop of `compute_from_specs` (main.py:1669-1693):
returns `(accum, used_w, used)`. -/
def cfs_go (L : ℚ → ℚ) (np : List (String × (ℚ × ℚ)))
    (raws : List (Nat × String × ℚ)) (mid : Nat) :
    List MetricSpec → ℚ → ℚ → List UsedEntry → Except String (ℚ × ℚ × List UsedEntry)
  | [], accum, used_w, used => pure (accum, used_w, used)
  | spec :: rest, accum, used_w, used => do
    match ← normContrib L np raws mid spec with
    | none => cfs_go L np raws mid rest accum used_w used
    | some e =>
      cfs_go L np raws mid rest (accum + e.norm * spec.weight) (used_w + spec.weight)
        (used ++ [e])

/-- Embeds `compute_from_specs` (main.py:1668-1698), the inner helper of
`score_model_category`: weighted mean over available metrics, with
`total_w = sum(weights) or 1.0`. -/
def compute_from_specs (L : ℚ → ℚ) (np : List (String × (ℚ × ℚ)))
    (raws : List (Nat × String × ℚ)) (mid : Nat) (specs : List MetricSpec) :
    Except String (Option ℚ × ℚ × Details) := do
  let (accum, used_w, used) ← cfs_go L np raws mid specs 0 0 []
  let sumw := (specs.map (·.weight)).sum
  let total_w := if sumw = 0 then 1 else sumw
  if used_w ≤ 0 then
    pure (none, 0, ⟨[], some "no metrics available", false⟩)
  else
    pure (some (accum / used_w), clamp01 (used_w / total_w), ⟨used, none, false⟩)

/-- The per-category body of `score_model_category` (main.py:1700-1714):
primary metrics, fallback on `None`, fallback confidence multiplier,
default `0.5`/`0.0`, and the final `clamp01` on score and confidence. -/
def score_category (L : ℚ → ℚ) (np : List (String × (ℚ × ℚ)))
    (raws : List (Nat × String × ℚ)) (mid : Nat) (cfg : Category) (fcm : ℚ) :
    Except String ScoreVal := do
  let r0 ← compute_from_specs L np raws mid cfg.metrics
  let (r, used_fallback) ←
    match r0.1 with
    | some _ => pure (r0, false)
    | none => do
      let r1 ← compute_from_specs L np raws mid cfg.fallbacks
      pure (r1, true)
  let conf := if used_fallback ∧ r.2.1 > 0 then clamp01 (r.2.1 * fcm) else r.2.1
  let (score, conf, details) :=
    match r.1 with
    | some s => (s, conf, r.2.2)
    | none => (1/2, 0, ⟨[], some "no metrics available, defaulted to 0.5", false⟩)
  pure (clamp01 score, clamp01 conf, { details with used_fallback := used_fallback })

/-- The category loop of `score_model_category` (main.py:1664). -/
def score_cats (L : ℚ → ℚ) (np : List (String × (ℚ × ℚ)))
    (raws : List (Nat × String × ℚ)) (mid : Nat) (fcm : ℚ) :
    List (String × Category) → Except String (List (String × ScoreVal))
  | [] => pure []
  | c :: cs => do
    let r ← score_category L np raws mid c.2 fcm
    let rest ← score_cats L np raws mid fcm cs
    pure ((c.1, r) :: rest)

/-- Embeds `score_model_category` (main.py:1658-1715): one
`(category, score, confidence, details)` tuple per category of the
standard, in declaration order. -/
def score_model_category (L : ℚ → ℚ) (np : List (String × (ℚ × ℚ)))
    (raws : List (Nat × String × ℚ)) (mid : Nat) (std : Standard) :
    Except String (List (String × ScoreVal)) :=
  score_cats L np raws mid std.fcm std.categories

/-- Embeds `get_or_create_standard` (main.py:657-667).  Standards are
identified by their (collision-free) `config_hash`, modelled as value
identity of the config itself; a new row gets id `length + 1` and the
insert is committed immediately. -/
def get_or_create_standard (standards : List (Nat × Standard)) (std : Standard) :
    List (Nat × Standard) × Nat :=
  match standards.find? (fun r => r.2 == std) with
  | some r => (standards, r.1)
  | none => (standards ++ [(standards.length + 1, std)], standards.length + 1)

/-- The key/spec pairs of a standard in traversal order
(main.py:1723-1726: metrics then fallbacks, per category). -/
def spec_pairs (std : Standard) : List (String × MetricSpec) :=
  (std.categories.map (fun c => (c.2.metrics ++ c.2.fallbacks).map (fun s => (s.key, s)))).flatten

/-- `needed_keys` / `metric_specs_by_key` of `rescore_all`
(main.py:1721-1726): one entry per key; the last spec seen for a key
wins (dict overwrite).  The Python `set` iteration order is
unspecified; first-occurrence order is used here (the resulting map is
order-independent). -/
def needed_specs (std : Standard) : List (String × MetricSpec) :=
  (spec_pairs std).foldl
    (fun acc p =>
      if acc.any (fun q => q.1 == p.1) then
        acc.map (fun q => if q.1 == p.1 then p else q)
      else acc ++ [p])
    []

/-- The accumulating loop of `norm_params_all`. -/
def np_go (L : ℚ → ℚ) (arenaMM : Option (ℚ × ℚ)) (bcbMM : String → Option (ℚ × ℚ))
    (raws : List (Nat × String × ℚ)) :
    List (String × MetricSpec) → List (String × (ℚ × ℚ)) →
    Except String (List (String × (ℚ × ℚ)))
  | [], acc => pure acc
  | p :: ps, acc => do
    match ← compute_norm_params L arenaMM bcbMM raws p.2 with
    | some q => np_go L arenaMM bcbMM raws ps (acc ++ [(p.1, q)])
    | none => np_go L arenaMM bcbMM raws ps acc

/-- The norm-params loop of `rescore_all` (main.py:1728-1733): for each
needed key keep the computed params when they exist. -/
def norm_params_all (L : ℚ → ℚ) (arenaMM : Option (ℚ × ℚ))
    (bcbMM : String → Option (ℚ × ℚ)) (raws : List (Nat × String × ℚ))
    (std : Standard) : Except String (List (String × (ℚ × ℚ))) :=
  np_go L arenaMM bcbMM raws (needed_specs std) []

/-- One scores-table upsert (`INSERT ... ON CONFLICT ... DO UPDATE`,
main.py:1741-1752). -/
def setScore (f : ScoreKey → Option ScoreVal) (k : ScoreKey) (v : ScoreVal) :
    ScoreKey → Option ScoreVal :=
  fun k' => if k' = k then some v else f k'

/-- Applies a batch of scores upserts in order. -/
def applyWrites (f : ScoreKey → Option ScoreVal) (ws : List (ScoreKey × ScoreVal)) :
    ScoreKey → Option ScoreVal :=
  ws.foldl (fun g w => setScore g w.1 w.2) f

/-- The per-model loop of `rescore_all` (main.py:1735-1753), collecting
the scores upserts `((model_id, standard_id, category), value)` in
execution order. -/
def score_writes (L : ℚ → ℚ) (np : List (String × (ℚ × ℚ)))
    (raws : List (Nat × String × ℚ)) (sid : Nat) (std : Standard) :
    List ModelRow → Except String (List (ScoreKey × ScoreVal))
  | [] => pure []
  | m :: ms => do
    let rs ← score_model_category L np raws m.id std
    let rest ← score_writes L np raws sid std ms
    pure (rs.map (fun r : String × ScoreVal => (((m.id, sid, r.1) : ScoreKey), r.2)) ++ rest)

/-- Embeds `rescore_all` (main.py:1718-1755).  The standards row is
inserted and committed by `get_or_create_standard` before the scoring
work begins, so it survives even when an unknown transform raises; all
scores writes are committed only at the end, so none of them survives
an error (the surrounding run exits without `conn.commit()`).  Returns
the post-state and either the number of category-score upserts or the
raised error. -/
def rescore_all (L : ℚ → ℚ) (arenaMM : Option (ℚ × ℚ))
    (bcbMM : String → Option (ℚ × ℚ)) (db : DB) (std : Standard) :
    DB × Except String Nat :=
  match norm_params_all L arenaMM bcbMM db.raw_metrics std with
  | .error e => ({ db with standards := (get_or_create_standard db.standards std).1 }, .error e)
  | .ok np =>
    match score_writes L np db.raw_metrics (get_or_create_standard db.standards std).2
        std db.models with
    | .error e => ({ db with standards := (get_or_create_standard db.standards std).1 }, .error e)
    | .ok ws =>
      ({ db with standards := (get_or_create_standard db.standards std).1,
                 scores := applyWrites db.scores ws }, .ok ws.length)

/-- Embeds `DEFAULT_STANDARD` (main.py:57-172), category by category in
source order. -/
def DEFAULT_STANDARD : Standard where
  name := "default-v5"
  categories :=
    [ ("coding",
       { metrics :=
           [ { key := "bigcodebench_instruct", better := some "higher", weight := 3/4,
               transform := none, scale := some (.mm 0 100) },
             { key := "bigcodebench_complete", better := some "higher", weight := 1/4,
               transform := none, scale := some (.mm 0 100) } ],
         fallbacks :=
           [ { key := "arena_score", better := some "higher", weight := 1,
               transform := none, scale := none } ] }),
      ("context_length",
       { metrics :=
           [ { key := "context_length_tokens", better := some "higher", weight := 1,
               transform := some "log1p", scale := some (.mm 2048 2000000) } ],
         fallbacks := [] }),
      ("cost",
       { metrics :=
           [ { key := "cost_usd_per_1m_mixed", better := some "lower", weight := 1,
               transform := some "log1p", scale := some (.mm (1/100) 100) } ],
         fallbacks :=
           [ { key := "cost_is_local_proxy", better := some "higher", weight := 1,
               transform := none, scale := some (.name "binary") } ] }),
      ("creativity",
       { metrics :=
           [ { key := "arena_score", better := some "higher", weight := 1,
               transform := none, scale := none } ],
         fallbacks := [] }),
      ("factuality",
       { metrics :=
           [ { key := "openllm_gpqa_acc_norm", better := some "higher", weight := 1,
               transform := none, scale := some (.name "unit") } ],
         fallbacks :=
           [ { key := "openllm_truthfulqa_mc2", better := some "higher", weight := 1,
               transform := none, scale := some (.name "unit") },
             { key := "complai_truthful_qa_mc2", better := some "higher", weight := 1,
               transform := none, scale := some (.name "unit") },
             { key := "arena_score", better := some "higher", weight := 1,
               transform := none, scale := none } ] }),
      ("function_calling",
       { metrics :=
           [ { key := "bfcl_v3_score", better := some "higher", weight := 1,
               transform := none, scale := some (.name "unit") } ],
         fallbacks :=
           [ { key := "openrouter_tools_supported", better := some "higher", weight := 1,
               transform := none, scale := some (.name "binary") } ] }),
      ("multilinguality",
       { metrics :=
           [ { key := "mmmlu_avg", better := some "higher", weight := 1,
               transform := none, scale := some (.name "unit") } ],
         fallbacks :=
           [ { key := "openllm_mgsm_exact_match", better := some "higher", weight := 3/5,
               transform := none, scale := some (.name "unit") },
             { key := "openllm_xnli_acc", better := some "higher", weight := 2/5,
               transform := none, scale := some (.name "unit") },
             { key := "hf_language_count", better := some "higher", weight := 1,
               transform := some "log1p", scale := none } ] }),
      ("openness",
       { metrics :=
           [ { key := "complai_openness_mean", better := some "higher", weight := 1,
               transform := none, scale := some (.name "unit") } ],
         fallbacks :=
           [ { key := "openrouter_is_moderated", better := some "lower", weight := 1,
               transform := none, scale := some (.name "binary") } ] }),
      ("reasoning",
       { metrics :=
           [ { key := "openllm_bbh_acc_norm", better := some "higher", weight := 17/50,
               transform := none, scale := some (.name "unit") },
             { key := "openllm_math_hard_exact_match", better := some "higher", weight := 33/100,
               transform := none, scale := some (.name "unit") },
             { key := "openllm_gpqa_acc_norm", better := some "higher", weight := 33/100,
               transform := none, scale := some (.name "unit") } ],
         fallbacks :=
           [ { key := "arena_score", better := some "higher", weight := 1,
               transform := none, scale := none } ] }),
      ("safety",
       { metrics :=
           [ { key := "complai_safety_enterprise_mean", better := some "higher", weight := 1/2,
               transform := none, scale := some (.name "unit") },
             { key := "complai_eu_ai_act_mean", better := some "higher", weight := 3/10,
               transform := none, scale := some (.name "unit") },
             { key := "complai_overall_mean", better := some "higher", weight := 1/5,
               transform := none, scale := some (.name "unit") } ],
         fallbacks :=
           [ { key := "openrouter_is_moderated", better := some "higher", weight := 1,
               transform := none, scale := some (.name "binary") } ] }),
      ("speed",
       { metrics :=
           [ { key := "measured_tokens_per_sec", better := some "higher", weight := 1,
               transform := some "log1p", scale := some (.mm 1 1000) },
             { key := "ollama_measured_tokens_per_sec", better := some "higher", weight := 1,
               transform := some "log1p", scale := some (.mm 1 200) } ],
         fallbacks :=
           [ { key := "cost_usd_per_1m_mixed", better := some "lower", weight := 1,
               transform := some "log1p", scale := some (.mm (1/100) 100) } ] }),
      ("structured_output",
       { metrics :=
           [ { key := "openrouter_structured_outputs_supported", better := some "higher",
               weight := 1, transform := none, scale := some (.name "binary") } ],
         fallbacks := [] }) ]

/-- A selected candidate (the `Candidate` dataclass fields used by the
orchestrator). -/
structure Candidate where
  name : String
  provider : String
  provider_id : String
  openrouter_id : Option String := none
  hf_repo_id : Option String := none
deriving DecidableEq, Repr

/-- Embeds `upsert_model` (main.py:603-624): match on
`(provider, provider_id)`; on update the `COALESCE(?, column)` keeps
the stored `openrouter_id` / `hf_repo_id` when the new value is null;
on insert assign id `length + 1`.  Returns the new models table and
the row id. -/
def upsert_model (models : List ModelRow) (display_name provider provider_id : String)
    (openrouter_id hf_repo_id : Option String) : List ModelRow × Nat :=
  match models.find? (fun m => m.provider == provider && m.provider_id == provider_id) with
  | some m =>
    (models.map (fun r =>
       if r.provider == provider && r.provider_id == provider_id then
         { r with display_name := display_name,
                  openrouter_id := openrouter_id <|> r.openrouter_id,
                  hf_repo_id := hf_repo_id <|> r.hf_repo_id }
       else r),
     m.id)
  | none =>
    (models ++ [{ id := models.length + 1, display_name := display_name,
                  provider := provider, provider_id := provider_id,
                  openrouter_id := openrouter_id, hf_repo_id := hf_repo_id }],
     models.length + 1)

/-- Embeds `set_model_hf_repo_id` (main.py:627-629). -/
def set_model_hf_repo_id (models : List ModelRow) (mid : Nat) (hf : Option String) :
    List ModelRow :=
  models.map (fun r => if r.id == mid then { r with hf_repo_id := hf } else r)

/-- Embeds the HF-linkage and Open LLM Leaderboard slice of
`evaluate_and_store_metrics` (main.py:1769-1810 and 1897-1912): the
model upsert, the HF-invalidation rule, the autolink step, and the
OpenLLM metric ingestion.  Network results are oracles: `hfMeta r`
is true when `fetch_hf_model_metadata(r)` succeeds, `alOpenllm` /
`alMeta` are the repo ids returned by `_best_hf_repo_for_openllm` /
`_best_hf_repo_for_metadata` (none when no match), and `openllm r` is
the already-extracted metric map of `fetch_openllm_results_json(r)`.
The extractor blocks in between (OpenRouter, Ollama, Arena,
BigCodeBench, MMMLU, BFCL) neither read nor write `hf_repo_id` and
write no `openllm_*` key, so they are omitted from this slice.
Returns the post-state and the model id. -/
def hf_invalidation_cond (hfMeta : String → Bool) (cand : Candidate) : Bool :=
  cand.hf_repo_id.isSome && cand.openrouter_id.isSome &&
    (cand.hf_repo_id == cand.openrouter_id) && !(hfMeta (cand.hf_repo_id.getD ""))

/-- The HF-invalidation step (main.py:1778-1782). -/
def hf_invalidation_step (hfMeta : String → Bool) (cand : Candidate)
    (models : List ModelRow) (mid : Nat) : Option String × List ModelRow :=
  if hf_invalidation_cond hfMeta cand then (none, set_model_hf_repo_id models mid none)
  else (cand.hf_repo_id, models)

/-- The autolink step (main.py:1784-1809), restricted to its effect on
`hf_repo_id` (the source/link rows it writes are not modelled). -/
def hf_autolink_step (alOpenllm alMeta : Option String) (cand : Candidate)
    (hf1 : Option String) (models : List ModelRow) (mid : Nat) :
    Option String × List ModelRow :=
  if hf1.isNone && cand.openrouter_id.isSome && cand.provider == "openrouter" then
    match alOpenllm with
    | some b => (some b, set_model_hf_repo_id models mid (some b))
    | none =>
      match alMeta with
      | some b => (some b, set_model_hf_repo_id models mid (some b))
      | none => (none, models)
  else (hf1, models)

/-- The Open LLM Leaderboard ingest step (main.py:1907-1912), keyed on
the possibly relinked `hf_repo_id`. -/
def openllm_ingest_step (openllm : String → Option (List (String × ℚ)))
    (hf2 : Option String) (raws : List (Nat × String × ℚ)) (mid : Nat) :
    List (Nat × String × ℚ) :=
  match hf2 with
  | none => raws
  | some rid =>
    match openllm rid with
    | none => raws
    | some kvs => kvs.foldl (fun a kv => upsert_metric a mid kv.1 kv.2) raws

def hf_linkage (hfMeta : String → Bool) (alOpenllm alMeta : Option String)
    (openllm : String → Option (List (String × ℚ))) (db : DB) (cand : Candidate) :
    DB × Nat :=
  let u := upsert_model db.models cand.name cand.provider cand.provider_id
             cand.openrouter_id cand.hf_repo_id
  let s1 := hf_invalidation_step hfMeta cand u.1 u.2
  let s2 := hf_autolink_step alOpenllm alMeta cand s1.1 s1.2 u.2
  ({ db with models := s2.2,
             raw_metrics := openllm_ingest_step openllm s2.1 db.raw_metrics u.2 }, u.2)

/-- The fields of an Ollama `/api/generate` response relevant to the
speed probe; the HTTP exchange also carries the generation payload and
a wall-clock duration, which `measure_speed_ollama` does not read. -/
structure OllamaResp where
  eval_count : Option ℚ := none
  eval_duration : Option ℚ := none
  completion_tokens : Option ℚ := none
  elapsed_secs : ℚ := 0
deriving DecidableEq, Repr

/-- Embeds `measure_speed_ollama` (main.py:824-847): reads only
`eval_count` and `eval_duration` (ns) with `or 0.0` defaults, fails
unless both are positive, else `eval_count / eval_duration * 1e9`. -/
def measure_speed_ollama (resp : OllamaResp) : Option ℚ :=
  let ec := resp.eval_count.getD 0
  let ed := resp.eval_duration.getD 0
  if ec ≤ 0 ∨ ed ≤ 0 then none
  else some (ec / ed * 1000000000)

/-- Embeds `measure_speed_openrouter` (main.py:1205-1228): requires an
API key and HTTP 200, clamps elapsed wall-clock time to at least
`1e-6` s, fails unless `usage.completion_tokens` is positive, else
`completion_tokens / dt_s`. -/
def measure_speed_openrouter (apiKey status200 : Bool) (completion_tokens : Option ℚ)
    (elapsed : ℚ) : Option ℚ :=
  if !apiKey then none
  else
    let dts := max (1/1000000) elapsed
    if !status200 then none
    else
      let ct := completion_tokens.getD 0
      if ct ≤ 0 then none
      else some (ct / dts)

/-- Embeds the speed-measurement block of `evaluate_and_store_metrics`
(main.py:1929-1943) as the list of `(metric_key, value)` upserts it
performs: a successful OpenRouter probe (attempted when the candidate
has an `openrouter_id`) is stored under `measured_tokens_per_sec`; a
successful Ollama probe (attempted when the candidate's provider is
`ollama`) is stored under `ollama_measured_tokens_per_sec`. -/
def speed_metric_writes (cand : Candidate) (orProbe : Option ℚ) (olResp : OllamaResp) :
    List (String × ℚ) :=
  (match cand.openrouter_id with
   | none => []
   | some _ =>
     match orProbe with
     | none => []
     | some tps => [("measured_tokens_per_sec", tps)]) ++
  (if cand.provider == "ollama" then
     match measure_speed_ollama olResp with
     | none => []
     | some tps => [("ollama_measured_tokens_per_sec", tps)]
   else [])

/-- Length of a longest common subsequence of two character lists. -/
def lcs : List Char → List Char → Nat
  | [], _ => 0
  | _ :: _, [] => 0
  | a :: as, b :: bs =>
    if a = b then lcs as bs + 1
    else max (lcs as (b :: bs)) (lcs (a :: as) bs)
termination_by l₁ l₂ => l₁.length + l₂.length
decreasing_by all_goals simp_arith

/-- Modelled from the spec: the fallback similarity of §4.1, "a
longest-common-subsequence ratio × 100" — the sources of the external
backends (`rapidfuzz.fuzz.WRatio` and the stdlib sequence matcher used
at main.py:234-236) are not part of this repository.  The ratio is
`2·M / (len a + len b)`, scaled to 0..100, with the stdlib's
convention that two empty strings have ratio 1. -/
def ratio100 (a b : List Char) : ℚ :=
  let t := a.length + b.length
  if t = 0 then 100 else 200 * (lcs a b : ℚ) / (t : ℚ)

/-- Embeds `fuzzy_score` (main.py:229-236), parameterised by the
optional external weighted-ratio backend `W` (`rapidfuzz.fuzz.WRatio`
when importable): use `W` when present, else the fallback ratio over
lower-cased inputs. -/
def fuzzy_score (W : Option (String → String → ℚ)) (a b : String) : ℚ :=
  match W with
  | some w => w a b
  | none => ratio100 a.toLower.toList b.toLower.toList

/-- Embeds the storing loop of `ingest_bfcl_results` (main.py:2093-2122)
over the successfully parsed `(model_name, score)` rows: resolve the
model (or create it), upsert `bfcl_v3_score` with the value clamped by
`clamp01`, and count the row.  Model resolution (`resolve_model_id`,
main.py:2030-2046) ranks display names with the external fuzzy
backend, so it is supplied as an oracle `resolve`; `none` means no
match ≥ 70 and a fresh model row is created exactly as in
main.py:2108-2116.  Returns the post-state, the performed metric
writes `(model_id, key, value)` in order, and the returned count. -/
def ingest_bfcl_step (resolve : List ModelRow → String → Option Nat)
    (acc : DB × List (Nat × String × ℚ) × Nat) (row : String × ℚ) :
    DB × List (Nat × String × ℚ) × Nat :=
  match acc, row with
  | (db, writes, n), (name, v) =>
    let s := clamp01 v
    let r :=
      match resolve db.models name with
      | some mid => (db.models, mid)
      | none => upsert_model db.models name "unknown" name none none
    ({ db with models := r.1, raw_metrics := upsert_metric db.raw_metrics r.2 "bfcl_v3_score" s },
     writes ++ [(r.2, "bfcl_v3_score", s)], n + 1)

def ingest_bfcl_store (resolve : List ModelRow → String → Option Nat) (db : DB)
    (rows : List (String × ℚ)) : DB × List (Nat × String × ℚ) × Nat :=
  rows.foldl (ingest_bfcl_step resolve) (db, [], 0)

/-- A store with exactly three models whose only raw metric is
`cost_usd_per_1m_mixed` with values `0.5`, `5.0` and `50.0`
(the cost-normalization scenario of the spec). -/
def db3 : DB where
  models := [⟨1, "a", "p", "a", none, none⟩, ⟨2, "b", "p", "b", none, none⟩,
             ⟨3, "c", "p", "c", none, none⟩]
  raw_metrics := [(1, "cost_usd_per_1m_mixed", 1/2), (2, "cost_usd_per_1m_mixed", 5),
                  (3, "cost_usd_per_1m_mixed", 50)]
  standards := []
  scores := fun _ => none

/-- The transform names `transform_value` accepts without raising. -/
def transformKnown (t : Option String) : Bool :=
  t == none || t == some "log1p" || t == some "cap_10"

/-- The value `transform_value` returns on a known transform name. -/
def pureTransform (L : ℚ → ℚ) : Option String → ℚ → ℚ
  | none, x => x
  | some "log1p", x => L (max 0 x)
  | some "cap_10", x => min 10 (max 0 x)
  | some _, _ => 0

/-- The value `normalize_value` returns on a known transform name. -/
def pureNormalize (L : ℚ → ℚ) (spec : MetricSpec) (p : ℚ × ℚ) (x : ℚ) : ℚ :=
  if |p.2 - p.1| < eps12 then 1/2
  else
    clamp01 (if spec.better.getD "higher" = "lower" then
      1 - clamp01 ((pureTransform L spec.transform x - p.1) / (p.2 - p.1))
    else clamp01 ((pureTransform L spec.transform x - p.1) / (p.2 - p.1)))

/-- Whether the model has a raw metric for the spec's key
(`raw is None` test at main.py:1677). -/
def avail (raws : List (Nat × String × ℚ)) (mid : Nat) (s : MetricSpec) : Bool :=
  (model_metric raws mid s.key).isSome

/-- The normalized contribution of an available spec (`norm` at
main.py:1680/1683). -/
def normOf (L : ℚ → ℚ) (np : List (String × (ℚ × ℚ))) (raws : List (Nat × String × ℚ))
    (mid : Nat) (s : MetricSpec) : ℚ :=
  match model_metric raws mid s.key with
  | none => 0
  | some x =>
    match lookupKey np s.key with
    | none => 1/2
    | some p => pureNormalize L s p x

/-- The `used` entry recorded for an available spec (main.py:1693). -/
def usedEntryOf (L : ℚ → ℚ) (np : List (String × (ℚ × ℚ))) (raws : List (Nat × String × ℚ))
    (mid : Nat) (s : MetricSpec) : UsedEntry where
  key := s.key
  raw := (model_metric raws mid s.key).getD 0
  norm := normOf L np raws mid s
  weight := s.weight
  norm_params :=
    match lookupKey np s.key with
    | none => none
    | some p => some (p.1, p.2, s.transform, s.better, s.scale)

/-- `used_w`: the summed weight of the available specs. -/
def usedW (raws : List (Nat × String × ℚ)) (mid : Nat) (specs : List MetricSpec) : ℚ :=
  ((specs.filter (avail raws mid)).map (·.weight)).sum

/-- The weighted sum `Σ norm · weight` over the available specs. -/
def wsum (L : ℚ → ℚ) (np : List (String × (ℚ × ℚ))) (raws : List (Nat × String × ℚ))
    (mid : Nat) (specs : List MetricSpec) : ℚ :=
  ((specs.filter (avail raws mid)).map
    (fun s => normOf L np raws mid s * s.weight)).sum

/-- The recorded `used` list over the available specs. -/
def usedList (L : ℚ → ℚ) (np : List (String × (ℚ × ℚ))) (raws : List (Nat × String × ℚ))
    (mid : Nat) (specs : List MetricSpec) : List UsedEntry :=
  (specs.filter (avail raws mid)).map (usedEntryOf L np raws mid)

/-- `total_w = sum(weights) or 1.0` (main.py:1670). -/
def totalW (specs : List MetricSpec) : ℚ :=
  if (specs.map (·.weight)).sum = 0 then 1 else (specs.map (·.weight)).sum

theorem clamp01_nonneg (x : ℚ) : 0 ≤ clamp01 x := le_max_left _ _

theorem clamp01_le_one (x : ℚ) : clamp01 x ≤ 1 :=
  max_le (by norm_num) (min_le_left 1 x)

theorem clamp01_eq_self {x : ℚ} (h0 : 0 ≤ x) (h1 : x ≤ 1) : clamp01 x = x := by
  unfold clamp01
  rw [min_eq_right h1, max_eq_right h0]

/-- The shape of every `score_category` result: both the score and the
confidence pass through the final `clamp01` (main.py:1714). -/
theorem score_category_shape {L np raws mid cfg fcm v}
    (h : score_category L np raws mid cfg fcm = .ok v) :
    ∃ a b d, v = (clamp01 a, clamp01 b, d) := by
  unfold score_category at h
  rcases h0 : compute_from_specs L np raws mid cfg.metrics with _ | r0
  · rw [h0] at h; exact absurd h (by simp [Bind.bind, Except.bind])
  rw [h0] at h
  rcases r0 with ⟨s0, c0, d0⟩
  rcases s0 with _ | s0
  · rcases h1 : compute_from_specs L np raws mid cfg.fallbacks with _ | r1
    · rw [h1] at h
      exact absurd h (by simp [Bind.bind, Except.bind])
    rw [h1] at h
    simp only [Bind.bind, Except.bind, pure, Except.pure] at h
    rcases r1 with ⟨s1, c1, d1⟩
    rcases s1 with _ | s1 <;>
      exact ⟨_, _, _, by simpa using h.symm⟩
  · simp only [Bind.bind, Except.bind, pure, Except.pure] at h
    exact ⟨_, _, _, by simpa using h.symm⟩

theorem score_category_bounds {L np raws mid cfg fcm v}
    (h : score_category L np raws mid cfg fcm = .ok v) :
    0 ≤ v.1 ∧ v.1 ≤ 1 ∧ 0 ≤ v.2.1 ∧ v.2.1 ≤ 1 := by
  obtain ⟨a, b, d, rfl⟩ := score_category_shape h
  exact ⟨clamp01_nonneg a, clamp01_le_one a, clamp01_nonneg b, clamp01_le_one b⟩

/-- Last write for a key in a batch of scores upserts. -/
def findLast : List (ScoreKey × ScoreVal) → ScoreKey → Option ScoreVal
  | [], _ => none
  | w :: t, k =>
    match findLast t k with
    | some v => some v
    | none => if w.1 = k then some w.2 else none

/-- Pointwise characterization of a batch of scores upserts: the last
write for the key wins, else the previous table entry stands. -/
theorem applyWrites_apply (ws : List (ScoreKey × ScoreVal)) (f : ScoreKey → Option ScoreVal)
    (k : ScoreKey) :
    applyWrites f ws k = match findLast ws k with | some v => some v | none => f k := by
  induction ws generalizing f with
  | nil => simp [applyWrites, findLast]
  | cons w t ih =>
    show applyWrites (setScore f w.1 w.2) t k = _
    rw [ih]
    rcases h : findLast t k with _ | v
    · show setScore f w.1 w.2 k = _
      unfold setScore findLast
      rw [h]
      by_cases hw : w.1 = k
      · simp [hw]
      · have hk : ¬ k = w.1 := fun h' => hw h'.symm
        simp [hw, hk]
    · unfold findLast
      rw [h]

theorem findLast_mem {ws : List (ScoreKey × ScoreVal)} {k : ScoreKey} {v : ScoreVal}
    (h : findLast ws k = some v) : (k, v) ∈ ws := by
  induction ws with
  | nil => simp [findLast] at h
  | cons w t ih =>
    unfold findLast at h
    rcases h' : findLast t k with _ | v'
    · rw [h'] at h
      by_cases hw : w.1 = k
      · rw [if_pos hw] at h
        cases h
        have he : (k, w.2) = w := by rw [← hw]
        rw [he]
        exact List.mem_cons_self _ _
      · rw [if_neg hw] at h
        cases h
    · rw [h'] at h
      cases h
      exact List.mem_cons_of_mem _ (ih h')

/-- Every entry of a successful `score_cats` result is a successful
`score_category` result for one of the listed categories. -/
theorem score_cats_mem {L np raws mid fcm cs rs} (h : score_cats L np raws mid fcm cs = .ok rs)
    {cv : String × ScoreVal} (hm : cv ∈ rs) :
    ∃ cfg, score_category L np raws mid cfg fcm = .ok cv.2 := by
  induction cs generalizing rs with
  | nil =>
    unfold score_cats at h
    cases h
    simp at hm
  | cons c cs ih =>
    unfold score_cats at h
    rcases hr : score_category L np raws mid c.2 fcm with e | r
    · rw [hr] at h
      exact absurd h (by simp [Bind.bind, Except.bind])
    rw [hr] at h
    rcases hrest : score_cats L np raws mid fcm cs with e | rest
    · rw [hrest] at h
      exact absurd h (by simp [Bind.bind, Except.bind])
    rw [hrest] at h
    simp only [Bind.bind, Except.bind, pure, Except.pure, Except.ok.injEq] at h
    subst h
    rcases List.mem_cons.mp hm with rfl | hm'
    · exact ⟨c.2, hr⟩
    · exact ih hrest hm'

/-- Every value written by the `rescore_all` model loop is a successful
`score_category` result. -/
theorem score_writes_mem {L np raws sid std ms ws}
    (h : score_writes L np raws sid std ms = .ok ws)
    {k : ScoreKey} {v : ScoreVal} (hm : (k, v) ∈ ws) :
    ∃ cfg, score_category L np raws k.1 cfg std.fcm = .ok v := by
  induction ms generalizing ws with
  | nil =>
    unfold score_writes at h
    cases h
    simp at hm
  | cons m ms ih =>
    unfold score_writes at h
    rcases hr : score_model_category L np raws m.id std with e | rs
    · rw [hr] at h
      exact absurd h (by simp [Bind.bind, Except.bind])
    rw [hr] at h
    rcases hrest : score_writes L np raws sid std ms with e | rest
    · rw [hrest] at h
      exact absurd h (by simp [Bind.bind, Except.bind])
    rw [hrest] at h
    simp only [Bind.bind, Except.bind, pure, Except.pure, Except.ok.injEq] at h
    subst h
    rcases List.mem_append.mp hm with hm' | hm'
    · obtain ⟨r, hr', he⟩ := List.mem_map.mp hm'
      obtain ⟨cfg, hc⟩ := score_cats_mem hr hr'
      cases he
      exact ⟨cfg, hc⟩
    · exact ih hrest hm'

/-- C4: Every Score row written by a rescore pass satisfies
`0 ≤ score ≤ 1` and `0 ≤ confidence ≤ 1`, for every database state,
every standard configuration, and every raw metric value: after
`rescore_all`, every scores entry either is untouched or lies inside
the unit square. -/
theorem rescore_all_scores_bounded (L : ℚ → ℚ) (aMM : Option (ℚ × ℚ))
    (bMM : String → Option (ℚ × ℚ)) (db : DB) (std : Standard) (k : ScoreKey) :
    (rescore_all L aMM bMM db std).1.scores k = db.scores k ∨
    ∃ v, (rescore_all L aMM bMM db std).1.scores k = some v ∧
      0 ≤ v.1 ∧ v.1 ≤ 1 ∧ 0 ≤ v.2.1 ∧ v.2.1 ≤ 1 := by
  unfold rescore_all
  rcases hnp : norm_params_all L aMM bMM db.raw_metrics std with e | np
  · left; rfl
  dsimp only
  rcases hws : score_writes L np db.raw_metrics
      (get_or_create_standard db.standards std).2 std db.models with e | ws
  · left; rfl
  dsimp only
  rw [applyWrites_apply]
  rcases hf : findLast ws k with _ | v
  · left; rfl
  · right
    refine ⟨v, rfl, ?_⟩
    obtain ⟨cfg, hc⟩ := score_writes_mem hws (findLast_mem hf)
    exact score_category_bounds hc

theorem clamp01_idem (x : ℚ) : clamp01 (clamp01 x) = clamp01 x :=
  clamp01_eq_self (clamp01_nonneg x) (clamp01_le_one x)

theorem clamp01_one_sub (x : ℚ) : clamp01 (1 - clamp01 x) = 1 - clamp01 x :=
  clamp01_eq_self (by linarith [clamp01_le_one x]) (by linarith [clamp01_nonneg x])

/-- C2: for normalization parameters `(mn, mx)`, a metric's normalized
contribution is `clamp01((transform(raw) - mn) / (mx - mn))`, inverted
to `1 - n` when `better == "lower"`; when `|mx - mn| < 1e-12` the
contribution is `0.5` regardless of the raw value; and when no
normalization parameters exist for the key (no benchmark override, no
declared scale, and fewer than two cohort values) a present raw value
contributes `0.5`. -/
theorem normalize_value_contract :
    (∀ (L : ℚ → ℚ) (spec : MetricSpec) (mn mx x tx : ℚ),
        transform_value L spec.transform x = .ok tx →
        normalize_value L spec (mn, mx) x =
          .ok (if |mx - mn| < eps12 then 1/2
               else if spec.better.getD "higher" = "lower" then
                 1 - clamp01 ((tx - mn) / (mx - mn))
               else clamp01 ((tx - mn) / (mx - mn)))) ∧
    (∀ (L : ℚ → ℚ) (np : List (String × (ℚ × ℚ))) (raws : List (Nat × String × ℚ))
        (mid : Nat) (spec : MetricSpec) (x : ℚ),
        lookupKey np spec.key = none →
        model_metric raws mid spec.key = some x →
        normContrib L np raws mid spec = .ok (some ⟨spec.key, x, 1/2, spec.weight, none⟩)) ∧
    (∀ (L : ℚ → ℚ) (aMM : Option (ℚ × ℚ)) (bMM : String → Option (ℚ × ℚ))
        (raws : List (Nat × String × ℚ)) (spec : MetricSpec),
        benchmark_scale_override L aMM bMM spec = .ok none →
        spec.scale = none →
        (get_metric_values raws spec.key).length < 2 →
        compute_norm_params L aMM bMM raws spec = .ok none) := by
  refine ⟨?_, ?_, ?_⟩
  · intro L spec mn mx x tx htx
    unfold normalize_value
    rw [htx]
    simp only [Bind.bind, Except.bind, pure, Except.pure]
    by_cases he : |mx - mn| < eps12
    · simp [he]
    · simp only [he, if_false]
      by_cases hb : spec.better.getD "higher" = "lower"
      · simp [hb, clamp01_one_sub]
      · simp [hb, clamp01_idem]
  · intro L np raws mid spec x hnp hmm
    unfold normContrib
    rw [hmm, hnp]
    rfl
  · intro L aMM bMM raws spec hbo hsc hlen
    unfold compute_norm_params cohort_params fixed_scale_params
    by_cases hk : spec.key = "cost_usd_per_1m_mixed"
    · have hlen' : (get_metric_values raws "cost_usd_per_1m_mixed").length < 2 := by
        rw [← hk]; exact hlen
      simp [hk, hlen', Bind.bind, Except.bind, pure, Except.pure]
    · simp [hk, hbo, hsc, hlen, Bind.bind, Except.bind, pure, Except.pure]

/-- Witness for C2 at concrete inputs: a `better="lower"` spec with
parameters `(0, 1)` and raw `3/4`; a key missing from the params map;
and a scale-free spec over an empty cohort. -/
theorem normalize_value_contract_witness :
    (normalize_value id ⟨"k", some "lower", 1, none, none⟩ (0, 1) (3/4) =
      .ok (1 - clamp01 ((3/4 - 0) / (1 - 0)))) ∧
    (normContrib id [] [(1, "k", 3/4)] 1 ⟨"k", some "lower", 1, none, none⟩ =
      .ok (some ⟨"k", 3/4, 1/2, 1, none⟩)) ∧
    (compute_norm_params id none (fun _ => none) [] ⟨"k", some "lower", 1, none, none⟩ =
      .ok none) := by
  refine ⟨?_, ?_, ?_⟩
  · have h := normalize_value_contract.1 id ⟨"k", some "lower", 1, none, none⟩ 0 1 (3/4) (3/4)
      (by rfl)
    rw [h]
    norm_num [eps12]
  · exact normalize_value_contract.2.1 id [] [(1, "k", 3/4)] 1
      ⟨"k", some "lower", 1, none, none⟩ (3/4) rfl rfl
  · exact normalize_value_contract.2.2 id none (fun _ => none) []
      ⟨"k", some "lower", 1, none, none⟩ rfl rfl (by simp [get_metric_values])

theorem lcs_nil_left (b : List Char) : lcs [] b = 0 := by
  rw [lcs.eq_def]

theorem lcs_nil_right (a : List Char) : lcs a [] = 0 := by
  rw [lcs.eq_def]
  cases a <;> rfl

theorem lcs_cons (x y : Char) (xs ys : List Char) :
    lcs (x :: xs) (y :: ys) =
      if x = y then lcs xs ys + 1 else max (lcs xs (y :: ys)) (lcs (x :: xs) ys) := by
  rw [lcs.eq_def]

theorem lcs_self (l : List Char) : lcs l l = l.length := by
  induction l with
  | nil => rw [lcs_nil_left]; rfl
  | cons a t ih =>
    rw [lcs_cons, if_pos rfl, ih]
    rfl

theorem lcs_comm (a b : List Char) : lcs a b = lcs b a := by
  generalize hn : a.length + b.length = n
  induction n using Nat.strong_induction_on generalizing a b with
  | _ n ih =>
    match a, b with
    | [], [] => rfl
    | [], x :: xs => rw [lcs_nil_left, lcs_nil_right]
    | x :: xs, [] => rw [lcs_nil_left, lcs_nil_right]
    | x :: xs, y :: ys =>
      subst hn
      rw [lcs_cons, lcs_cons]
      by_cases hxy : x = y
      · have hyx : y = x := hxy.symm
        rw [if_pos hxy, if_pos hyx,
          ih (xs.length + ys.length) (by simp only [List.length_cons]; omega) xs ys rfl]
      · have hyx : ¬ y = x := fun h => hxy h.symm
        rw [if_neg hxy, if_neg hyx,
            ih (xs.length + (y :: ys).length) (by simp only [List.length_cons]; omega)
              xs (y :: ys) rfl,
            ih ((x :: xs).length + ys.length) (by simp only [List.length_cons]; omega)
              (x :: xs) ys rfl,
            Nat.max_comm]

theorem ratio100_self (l : List Char) : ratio100 l l = 100 := by
  unfold ratio100
  rw [lcs_self]
  rcases Nat.eq_zero_or_pos l.length with h0 | hpos
  · simp [h0]
  · have hne : l.length + l.length ≠ 0 := by omega
    rw [if_neg hne]
    have hq : (0 : ℚ) < (l.length : ℚ) := by exact_mod_cast hpos
    push_cast
    rw [div_eq_iff (by linarith)]
    ring

theorem ratio100_comm (a b : List Char) : ratio100 a b = ratio100 b a := by
  unfold ratio100
  rw [lcs_comm, Nat.add_comm]

/-- C9: `similarity(a, a) = 100` and `similarity(a, b) =
similarity(b, a)` for `fuzzy_score`, whichever backend is active: the
external weighted-ratio backend under its documented
reflexivity/symmetry contract, and the longest-common-subsequence
fallback outright. -/
theorem fuzzy_score_refl_symm (W : Option (String → String → ℚ)) (a b : String)
    (hW : ∀ w, W = some w → (∀ x, w x x = 100) ∧ (∀ x y, w x y = w y x)) :
    fuzzy_score W a a = 100 ∧ fuzzy_score W a b = fuzzy_score W b a := by
  cases W with
  | some w =>
    obtain ⟨hrefl, hsymm⟩ := hW w rfl
    exact ⟨hrefl a, hsymm a b⟩
  | none =>
    exact ⟨ratio100_self a.toLower.toList, ratio100_comm a.toLower.toList b.toLower.toList⟩

/-- Witness for C9: the fallback backend at concrete strings. -/
theorem fuzzy_score_refl_symm_witness :
    fuzzy_score none "GPT-5" "GPT-5" = 100 ∧
    fuzzy_score none "GPT-5" "gpt 5" = fuzzy_score none "gpt 5" "GPT-5" :=
  fuzzy_score_refl_symm none "GPT-5" "gpt 5" (fun w h => by cases h)

/-- The counting and write-shape invariant of the BFCL ingest loop. -/
theorem ingest_bfcl_go (resolve : List ModelRow → String → Option Nat)
    (rows : List (String × ℚ)) (st : DB × List (Nat × String × ℚ) × Nat) :
    ((rows.foldl (ingest_bfcl_step resolve) st).2.2 = st.2.2 + rows.length) ∧
    ((rows.foldl (ingest_bfcl_step resolve) st).2.1.map (fun w => (w.2.1, w.2.2)) =
      st.2.1.map (fun w => (w.2.1, w.2.2)) ++
        rows.map (fun r => ("bfcl_v3_score", clamp01 r.2))) := by
  induction rows generalizing st with
  | nil => simp
  | cons r t ih =>
    rcases st with ⟨db, writes, n⟩
    rcases r with ⟨name, v⟩
    rw [List.foldl_cons]
    rcases ih (ingest_bfcl_step resolve (db, writes, n) (name, v)) with ⟨ihc, ihw⟩
    constructor
    · rw [ihc]
      show (ingest_bfcl_step resolve (db, writes, n) (name, v)).2.2 + t.length = _
      unfold ingest_bfcl_step
      simp only [List.length_cons]
      omega
    · rw [ihw]
      unfold ingest_bfcl_step
      rcases h : resolve db.models name with _ | mid <;> simp [h]

/-- C10: every successfully parsed `ingest-bfcl` row is stored with its
score clamped to `[0, 1]` by `clamp01` (negatives as `0.0`,
percent-scale values above `1` as `1.0`) rather than dropped, and the
operation returns the number of rows stored this way. -/
theorem ingest_bfcl_store_clamps (resolve : List ModelRow → String → Option Nat)
    (db : DB) (rows : List (String × ℚ)) :
    ((ingest_bfcl_store resolve db rows).2.2 = rows.length) ∧
    ((ingest_bfcl_store resolve db rows).2.1.map (fun w => (w.2.1, w.2.2)) =
      rows.map (fun r => ("bfcl_v3_score", clamp01 r.2))) ∧
    clamp01 (-(1/2)) = 0 ∧ clamp01 85 = 1 := by
  rcases ingest_bfcl_go resolve rows (db, [], 0) with ⟨hc, hw⟩
  refine ⟨by simpa using hc, by simpa using hw, by norm_num [clamp01], by norm_num [clamp01]⟩

/-- Counterexample to C8: a local-server response without the
`eval_count`/`eval_duration` pair but with `completion_tokens = 100`
over `2` s makes the local probe fail (`none`) instead of reporting
`100 / 2 = 50`; and a successful local probe (pair `100` tokens in
`2e9` ns, i.e. `50` tok/s) for an Ollama candidate is stored under
`ollama_measured_tokens_per_sec`, not `measured_tokens_per_sec`. -/
theorem measure_speed_ollama_counterexample :
    measure_speed_ollama ⟨none, none, some 100, 2⟩ = none ∧
    (some 100 : Option ℚ).getD 0 / (2 : ℚ) = 50 ∧
    speed_metric_writes ⟨"m", "ollama", "m", none, none⟩ none
        ⟨some 100, some 2000000000, none, 0⟩ =
      [("ollama_measured_tokens_per_sec", 50)] ∧
    ("measured_tokens_per_sec", (50 : ℚ)) ∉
      speed_metric_writes ⟨"m", "ollama", "m", none, none⟩ none
        ⟨some 100, some 2000000000, none, 0⟩ := by
  refine ⟨rfl, by norm_num, ?_, ?_⟩
  · show speed_metric_writes _ _ _ = _
    unfold speed_metric_writes measure_speed_ollama
    norm_num
  · unfold speed_metric_writes measure_speed_ollama
    norm_num
    decide

/-- C8 (amended): the local-inference-server probe reports
`eval_count / eval_duration * 1e9` only when the response carries both
fields positive and fails otherwise — the
`completion_tokens / elapsed_seconds` computation is the registry
(OpenRouter) probe's, which requires an API key, HTTP 200 and positive
`completion_tokens` over the wall clock clamped to at least `1e-6` s;
a successful local probe is stored under
`ollama_measured_tokens_per_sec`, while `measured_tokens_per_sec`
records the registry probe. -/
theorem speed_probe_amended :
    (∀ resp : OllamaResp,
        measure_speed_ollama resp =
          if resp.eval_count.getD 0 ≤ 0 ∨ resp.eval_duration.getD 0 ≤ 0 then none
          else some (resp.eval_count.getD 0 / resp.eval_duration.getD 0 * 1000000000)) ∧
    (∀ (k s : Bool) (ct : Option ℚ) (el : ℚ),
        measure_speed_openrouter k s ct el =
          if k = true ∧ s = true ∧ 0 < ct.getD 0 then
            some (ct.getD 0 / max (1/1000000) el)
          else none) ∧
    (∀ (cand : Candidate) (orProbe : Option ℚ) (olResp : OllamaResp) (tps : ℚ),
        cand.provider = "ollama" → measure_speed_ollama olResp = some tps →
        ("ollama_measured_tokens_per_sec", tps) ∈ speed_metric_writes cand orProbe olResp ∧
        (cand.openrouter_id = none →
          ∀ v, ("measured_tokens_per_sec", v) ∉ speed_metric_writes cand orProbe olResp)) ∧
    (∀ (cand : Candidate) (tps : ℚ) (olResp : OllamaResp),
        cand.openrouter_id.isSome →
        ("measured_tokens_per_sec", tps) ∈ speed_metric_writes cand (some tps) olResp) := by
  refine ⟨fun resp => rfl, ?_, ?_, ?_⟩
  · intro k s ct el
    unfold measure_speed_openrouter
    cases k <;> cases s <;> simp
    by_cases hc : ct.getD 0 ≤ 0
    · simp [hc, not_lt.mpr hc]
    · simp [hc, lt_of_not_le hc]
  · intro cand orProbe olResp tps hprov hprobe
    unfold speed_metric_writes
    rw [hprobe, hprov]
    constructor
    · simp
    · intro hor v
      rw [hor]
      simp
  · intro cand tps olResp hor
    unfold speed_metric_writes
    rcases h : cand.openrouter_id with _ | o
    · rw [h] at hor; cases hor
    · simp

/-- Witness for C8 (amended) at concrete inputs. -/
theorem speed_probe_amended_witness :
    measure_speed_ollama ⟨some 100, some 1000000000, none, 0⟩ =
      (if ((some 100 : Option ℚ).getD 0 ≤ 0 ∨ (some 1000000000 : Option ℚ).getD 0 ≤ 0) then none
       else some ((some 100 : Option ℚ).getD 0 / (some 1000000000 : Option ℚ).getD 0 *
         1000000000)) ∧
    ("ollama_measured_tokens_per_sec", (100 : ℚ)) ∈
      speed_metric_writes ⟨"m", "ollama", "m", none, none⟩ none
        ⟨some 100, some 1000000000, none, 0⟩ ∧
    ("measured_tokens_per_sec", (7 : ℚ)) ∈
      speed_metric_writes ⟨"m", "openrouter", "m", some "prov/m", none⟩ (some 7)
        ⟨none, none, none, 0⟩ := by
  refine ⟨speed_probe_amended.1 _, ?_, ?_⟩
  · exact (speed_probe_amended.2.2.1 ⟨"m", "ollama", "m", none, none⟩ none
      ⟨some 100, some 1000000000, none, 0⟩ 100 rfl (by norm_num [measure_speed_ollama])).1
  · exact speed_probe_amended.2.2.2 ⟨"m", "openrouter", "m", some "prov/m", none⟩ 7
      ⟨none, none, none, 0⟩ rfl

theorem transform_value_known {t : Option String} (L : ℚ → ℚ) (x : ℚ)
    (h : transformKnown t = true) :
    transform_value L t x = .ok (pureTransform L t x) := by
  unfold transformKnown at h
  rcases t with _ | s
  · rfl
  · simp only [Bool.or_eq_true, beq_iff_eq] at h
    rcases h with (h | h) | h
    · simp at h
    · cases h; rfl
    · cases h; rfl

theorem normalize_value_known {spec : MetricSpec} (L : ℚ → ℚ) (p : ℚ × ℚ) (x : ℚ)
    (h : transformKnown spec.transform = true) :
    normalize_value L spec p x = .ok (pureNormalize L spec p x) := by
  unfold normalize_value pureNormalize
  rw [transform_value_known L x h]
  simp only [Bind.bind, Except.bind, pure, Except.pure]
  by_cases he : |p.2 - p.1| < eps12 <;> simp [he]

theorem normContrib_known {s : MetricSpec} (L : ℚ → ℚ) (np : List (String × (ℚ × ℚ)))
    (raws : List (Nat × String × ℚ)) (mid : Nat)
    (h : transformKnown s.transform = true) :
    normContrib L np raws mid s =
      .ok (if avail raws mid s then some (usedEntryOf L np raws mid s) else none) := by
  unfold normContrib avail usedEntryOf normOf
  rcases hm : model_metric raws mid s.key with _ | x
  · simp [pure, Except.pure]
  · rcases hl : lookupKey np s.key with _ | p
    · simp [pure, Except.pure]
    · dsimp only
      rw [normalize_value_known L p x h]
      simp [pure, Except.pure, Bind.bind, Except.bind]

theorem cfs_go_known (L : ℚ → ℚ) (np : List (String × (ℚ × ℚ)))
    (raws : List (Nat × String × ℚ)) (mid : Nat) (specs : List MetricSpec)
    (a w : ℚ) (u : List UsedEntry)
    (htr : ∀ s ∈ specs, transformKnown s.transform = true) :
    cfs_go L np raws mid specs a w u =
      .ok (a + wsum L np raws mid specs, w + usedW raws mid specs,
           u ++ usedList L np raws mid specs) := by
  induction specs generalizing a w u with
  | nil => simp [cfs_go, wsum, usedW, usedList, pure, Except.pure]
  | cons s rest ih =>
    have hs := htr s (List.mem_cons_self s rest)
    have hrest : ∀ x ∈ rest, transformKnown x.transform = true :=
      fun x hx => htr x (List.mem_cons_of_mem s hx)
    unfold cfs_go
    rw [normContrib_known L np raws mid hs]
    rcases hav : avail raws mid s with _ | _
    · simp only [Bind.bind, Except.bind, hav, Bool.false_eq_true, if_false]
      rw [ih a w u hrest]
      simp [wsum, usedW, usedList, List.filter_cons, hav]
    · simp only [Bind.bind, Except.bind, hav, if_true]
      rw [ih _ _ _ hrest]
      simp only [wsum, usedW, usedList, List.filter_cons, hav, if_true, List.map_cons,
        List.sum_cons, Except.ok.injEq, Prod.mk.injEq, usedEntryOf]
      refine ⟨by ring, by ring, by simp⟩

theorem compute_from_specs_known (L : ℚ → ℚ) (np : List (String × (ℚ × ℚ)))
    (raws : List (Nat × String × ℚ)) (mid : Nat) (specs : List MetricSpec)
    (htr : ∀ s ∈ specs, transformKnown s.transform = true) :
    compute_from_specs L np raws mid specs =
      .ok (if usedW raws mid specs ≤ 0 then
             (none, 0, ⟨[], some "no metrics available", false⟩)
           else
             (some (wsum L np raws mid specs / usedW raws mid specs),
              clamp01 (usedW raws mid specs / totalW specs),
              ⟨usedList L np raws mid specs, none, false⟩)) := by
  unfold compute_from_specs
  rw [cfs_go_known L np raws mid specs 0 0 [] htr]
  simp only [Bind.bind, Except.bind, zero_add, List.nil_append, totalW]
  by_cases h0 : usedW raws mid specs ≤ 0 <;> simp [h0, pure, Except.pure]

theorem normOf_bounds (L : ℚ → ℚ) (np : List (String × (ℚ × ℚ)))
    (raws : List (Nat × String × ℚ)) (mid : Nat) (s : MetricSpec) :
    0 ≤ normOf L np raws mid s ∧ normOf L np raws mid s ≤ 1 := by
  unfold normOf
  rcases model_metric raws mid s.key with _ | x
  · norm_num
  rcases lookupKey np s.key with _ | p
  · norm_num
  unfold pureNormalize
  by_cases he : |p.2 - p.1| < eps12
  · simp only [he, if_true]
    norm_num
  · simp only [he, if_false]
    exact ⟨clamp01_nonneg _, clamp01_le_one _⟩

theorem wsum_bounds (L : ℚ → ℚ) (np : List (String × (ℚ × ℚ)))
    (raws : List (Nat × String × ℚ)) (mid : Nat) (specs : List MetricSpec)
    (hw : ∀ s ∈ specs, 0 ≤ s.weight) :
    0 ≤ wsum L np raws mid specs ∧ wsum L np raws mid specs ≤ usedW raws mid specs := by
  unfold wsum usedW
  induction specs with
  | nil => simp
  | cons s rest ih =>
    have hs := hw s (List.mem_cons_self s rest)
    have hrest := ih (fun x hx => hw x (List.mem_cons_of_mem s hx))
    rcases hav : avail raws mid s with _ | _
    · simpa [List.filter_cons, hav] using hrest
    · obtain ⟨hn0, hn1⟩ := normOf_bounds L np raws mid s
      simp only [List.filter_cons, hav, if_true, List.map_cons, List.sum_cons]
      constructor
      · have : 0 ≤ normOf L np raws mid s * s.weight := mul_nonneg hn0 hs
        linarith [hrest.1]
      · have : normOf L np raws mid s * s.weight ≤ s.weight :=
          mul_le_of_le_one_left hs hn1
        linarith [hrest.2]

theorem usedW_le_sum (raws : List (Nat × String × ℚ)) (mid : Nat)
    (specs : List MetricSpec) (hw : ∀ s ∈ specs, 0 ≤ s.weight) :
    usedW raws mid specs ≤ (specs.map (·.weight)).sum := by
  unfold usedW
  induction specs with
  | nil => simp
  | cons s rest ih =>
    have hs := hw s (List.mem_cons_self s rest)
    have hrest := ih (fun x hx => hw x (List.mem_cons_of_mem s hx))
    rcases hav : avail raws mid s with _ | _
    · simp only [List.filter_cons, hav, Bool.false_eq_true, if_false, List.map_cons,
        List.sum_cons]
      linarith
    · simp only [List.filter_cons, hav, if_true, List.map_cons, List.sum_cons]
      linarith

theorem usedW_pos (raws : List (Nat × String × ℚ)) (mid : Nat)
    (specs : List MetricSpec) (hw : ∀ s ∈ specs, 0 ≤ s.weight)
    {s : MetricSpec} (hmem : s ∈ specs) (hpos : 0 < s.weight)
    (hav : avail raws mid s = true) :
    0 < usedW raws mid specs := by
  unfold usedW
  have hmem' : s.weight ∈ (specs.filter (avail raws mid)).map (·.weight) :=
    List.mem_map.mpr ⟨s, List.mem_filter.mpr ⟨hmem, hav⟩, rfl⟩
  have hle : s.weight ≤ ((specs.filter (avail raws mid)).map (·.weight)).sum := by
    apply List.single_le_sum _ _ hmem'
    intro x hx
    obtain ⟨y, hy, rfl⟩ := List.mem_map.mp hx
    exact hw y (List.mem_filter.mp hy).1
  linarith

theorem usedW_eq_zero (raws : List (Nat × String × ℚ)) (mid : Nat)
    (specs : List MetricSpec) (hw : ∀ s ∈ specs, 0 ≤ s.weight)
    (hno : ∀ s ∈ specs, avail raws mid s = true → s.weight ≤ 0) :
    usedW raws mid specs = 0 := by
  unfold usedW
  apply List.sum_eq_zero
  intro x hx
  obtain ⟨y, hy, rfl⟩ := List.mem_map.mp hx
  obtain ⟨hmem, hav⟩ := List.mem_filter.mp hy
  exact le_antisymm (hno y hmem hav) (hw y hmem)

/-- Full characterization of `score_category` on a standard whose
transforms are all known and whose weights are nonnegative, with a
fallback multiplier in `[0, 1]`: the primary weighted mean when some
positive primary weight is available, else the fallback weighted mean
with the confidence multiplied by `fcm`, else the `0.5`/`0.0`
default. -/
theorem score_category_eq (L : ℚ → ℚ) (np : List (String × (ℚ × ℚ)))
    (raws : List (Nat × String × ℚ)) (mid : Nat) (cfg : Category) (fcm : ℚ)
    (htr : ∀ s ∈ cfg.metrics ++ cfg.fallbacks, transformKnown s.transform = true)
    (hw : ∀ s ∈ cfg.metrics ++ cfg.fallbacks, 0 ≤ s.weight)
    (hfcm0 : 0 ≤ fcm) (hfcm1 : fcm ≤ 1) :
    score_category L np raws mid cfg fcm =
      .ok (if 0 < usedW raws mid cfg.metrics then
             (wsum L np raws mid cfg.metrics / usedW raws mid cfg.metrics,
              usedW raws mid cfg.metrics / totalW cfg.metrics,
              ⟨usedList L np raws mid cfg.metrics, none, false⟩)
           else if 0 < usedW raws mid cfg.fallbacks then
             (wsum L np raws mid cfg.fallbacks / usedW raws mid cfg.fallbacks,
              usedW raws mid cfg.fallbacks / totalW cfg.fallbacks * fcm,
              ⟨usedList L np raws mid cfg.fallbacks, none, true⟩)
           else (1/2, 0, ⟨[], some "no metrics available, defaulted to 0.5", true⟩)) := by
  have htrm : ∀ s ∈ cfg.metrics, transformKnown s.transform = true :=
    fun s hs => htr s (List.mem_append_left _ hs)
  have htrf : ∀ s ∈ cfg.fallbacks, transformKnown s.transform = true :=
    fun s hs => htr s (List.mem_append_right _ hs)
  have hwm : ∀ s ∈ cfg.metrics, 0 ≤ s.weight :=
    fun s hs => hw s (List.mem_append_left _ hs)
  have hwf : ∀ s ∈ cfg.fallbacks, 0 ≤ s.weight :=
    fun s hs => hw s (List.mem_append_right _ hs)
  have ratio_mem : ∀ specs, (∀ s ∈ specs, 0 ≤ s.weight) → 0 < usedW raws mid specs →
      0 ≤ wsum L np raws mid specs / usedW raws mid specs ∧
      wsum L np raws mid specs / usedW raws mid specs ≤ 1 := by
    intro specs hws hpos
    obtain ⟨h0, h1⟩ := wsum_bounds L np raws mid specs hws
    exact ⟨div_nonneg h0 (le_of_lt hpos), (div_le_one hpos).mpr h1⟩
  have conf_mem : ∀ specs, (∀ s ∈ specs, 0 ≤ s.weight) → 0 < usedW raws mid specs →
      0 < usedW raws mid specs / totalW specs ∧
      usedW raws mid specs / totalW specs ≤ 1 := by
    intro specs hws hpos
    have hle := usedW_le_sum raws mid specs hws
    have hsum : 0 < (specs.map (·.weight)).sum := lt_of_lt_of_le hpos hle
    have ht : totalW specs = (specs.map (·.weight)).sum := by
      unfold totalW
      rw [if_neg (ne_of_gt hsum)]
    rw [ht]
    exact ⟨div_pos hpos hsum, (div_le_one hsum).mpr hle⟩
  unfold score_category
  rw [compute_from_specs_known L np raws mid cfg.metrics htrm]
  by_cases hm : 0 < usedW raws mid cfg.metrics
  · rw [if_neg (not_le.mpr hm)]
    simp only [Bind.bind, Except.bind, if_pos hm, pure, Except.pure]
    obtain ⟨hr0, hr1⟩ := ratio_mem cfg.metrics hwm hm
    obtain ⟨hc0, hc1⟩ := conf_mem cfg.metrics hwm hm
    rw [clamp01_eq_self (le_of_lt hc0) hc1]
    simp only [Except.ok.injEq, Prod.mk.injEq]
    exact ⟨clamp01_eq_self hr0 hr1, clamp01_eq_self (le_of_lt hc0) hc1, trivial⟩
  · rw [if_pos (not_lt.mp hm), if_neg hm]
    simp only [Bind.bind, Except.bind]
    rw [compute_from_specs_known L np raws mid cfg.fallbacks htrf]
    by_cases hf : 0 < usedW raws mid cfg.fallbacks
    · rw [if_neg (not_le.mpr hf), if_pos hf]
      obtain ⟨hr0, hr1⟩ := ratio_mem cfg.fallbacks hwf hf
      obtain ⟨hc0, hc1⟩ := conf_mem cfg.fallbacks hwf hf
      simp only [Bind.bind, Except.bind, pure, Except.pure]
      rw [clamp01_eq_self (le_of_lt hc0) hc1]
      rw [if_pos ⟨trivial, hc0⟩]
      have hprod0 : 0 ≤ usedW raws mid cfg.fallbacks / totalW cfg.fallbacks * fcm :=
        mul_nonneg (le_of_lt hc0) hfcm0
      have hprod1 : usedW raws mid cfg.fallbacks / totalW cfg.fallbacks * fcm ≤ 1 :=
        mul_le_one₀ hc1 hfcm0 hfcm1
      simp only [Except.ok.injEq, Prod.mk.injEq]
      exact ⟨clamp01_eq_self hr0 hr1,
        (clamp01_idem _).trans (clamp01_eq_self hprod0 hprod1), trivial⟩
    · rw [if_pos (not_lt.mp hf), if_neg hf]
      simp only [Bind.bind, Except.bind, pure, Except.pure]
      norm_num [clamp01]

/-- Counterexample to C1: a primary MetricSpec with weight `0` whose
key *does* have a RawMetric for the model still sends the category to
the fallback path, so `used_fallback == true` although a primary key
has a RawMetric: model 1 has raw metric `k = 1`, the sole primary spec
has key `k` and weight `0`, yet the stored details carry
`used_fallback = true`. -/
theorem score_model_category_counterexample :
    (model_metric [(1, "k", 1)] 1 "k" = some 1) ∧
    ((rescore_all (fun x => x) none (fun _ => none)
        ⟨[⟨1, "m", "p", "pm", none, none⟩], [(1, "k", 1)], [], fun _ => none⟩
        ⟨"s", [("c", ⟨[⟨"k", some "higher", 0, none, none⟩],
                      [⟨"f", some "higher", 1, none, none⟩]⟩)], none⟩).1.scores
      (1, 1, "c")) = some (1/2, 0, ⟨[], some "no metrics available, defaulted to 0.5", true⟩) := by
  refine ⟨rfl, ?_⟩
  simp [rescore_all, norm_params_all, np_go, needed_specs, spec_pairs,
    compute_norm_params, benchmark_scale_override, fixed_scale_params, cohort_params,
    get_metric_values, score_writes, score_model_category, score_cats, score_category,
    compute_from_specs, cfs_go, normContrib, model_metric, lookupKey, applyWrites,
    setScore, get_or_create_standard, Standard.fcm, Bind.bind, Except.bind, pure,
    Except.pure, findLast, List.filter, List.find?, List.foldl, List.map, List.any,
    List.mapM, List.mapM.loop, List.length, List.flatten, clamp01]
  norm_num

/-- C1 (amended): for a category of the active standard (all transforms
known, weights nonnegative, fallback multiplier in `[0, 1]`): if any
primary MetricSpec *with positive weight* has a RawMetric for the
model, `used_fallback == false` and the category score is the weighted
mean `Σ norm·weight / used_w` over exactly the primary MetricSpecs
whose key has a RawMetric, with confidence `used_w / total declared
primary weight`; the fallbacks are consulted only otherwise, in which
case the same computation runs over them and the confidence is
multiplied by `fallback_confidence_multiplier`; if neither yields a
positively-weighted available metric the stored score is `0.5` with
confidence `0.0` and `details.used == []` (the default multiplier,
when the standard declares none, is `0.33`). -/
theorem score_model_category_amended (L : ℚ → ℚ) (np : List (String × (ℚ × ℚ)))
    (raws : List (Nat × String × ℚ)) (mid : Nat) (std : Standard)
    (cat : String) (cfg : Category) (_hmem : (cat, cfg) ∈ std.categories)
    (htr : ∀ s ∈ cfg.metrics ++ cfg.fallbacks, transformKnown s.transform = true)
    (hw : ∀ s ∈ cfg.metrics ++ cfg.fallbacks, 0 ≤ s.weight)
    (hfcm0 : 0 ≤ std.fcm) (hfcm1 : std.fcm ≤ 1) :
    ((∃ s ∈ cfg.metrics, 0 < s.weight ∧ avail raws mid s = true) →
      score_category L np raws mid cfg std.fcm =
        .ok (wsum L np raws mid cfg.metrics / usedW raws mid cfg.metrics,
             usedW raws mid cfg.metrics / totalW cfg.metrics,
             ⟨usedList L np raws mid cfg.metrics, none, false⟩)) ∧
    ((¬ ∃ s ∈ cfg.metrics, 0 < s.weight ∧ avail raws mid s = true) →
      (∃ s ∈ cfg.fallbacks, 0 < s.weight ∧ avail raws mid s = true) →
      score_category L np raws mid cfg std.fcm =
        .ok (wsum L np raws mid cfg.fallbacks / usedW raws mid cfg.fallbacks,
             usedW raws mid cfg.fallbacks / totalW cfg.fallbacks * std.fcm,
             ⟨usedList L np raws mid cfg.fallbacks, none, true⟩)) ∧
    ((¬ ∃ s ∈ cfg.metrics, 0 < s.weight ∧ avail raws mid s = true) →
      (¬ ∃ s ∈ cfg.fallbacks, 0 < s.weight ∧ avail raws mid s = true) →
      score_category L np raws mid cfg std.fcm =
        .ok (1/2, 0, ⟨[], some "no metrics available, defaulted to 0.5", true⟩)) ∧
    (std.fallback_confidence_multiplier = none → std.fcm = 33/100) := by
  have hwm : ∀ s ∈ cfg.metrics, 0 ≤ s.weight :=
    fun s hs => hw s (List.mem_append_left _ hs)
  have hwf : ∀ s ∈ cfg.fallbacks, 0 ≤ s.weight :=
    fun s hs => hw s (List.mem_append_right _ hs)
  have hkey := score_category_eq L np raws mid cfg std.fcm htr hw hfcm0 hfcm1
  have hzero : ∀ (specs : List MetricSpec), (∀ s ∈ specs, 0 ≤ s.weight) →
      (¬ ∃ s ∈ specs, 0 < s.weight ∧ avail raws mid s = true) →
      usedW raws mid specs = 0 := by
    intro specs hws hno
    push_neg at hno
    apply usedW_eq_zero raws mid specs hws
    intro s hs hav
    rcases le_or_lt s.weight 0 with h | h
    · exact h
    · exact absurd hav (hno s hs h)
  refine ⟨?_, ?_, ?_, ?_⟩
  · rintro ⟨s, hs, hpos, hav⟩
    have hm : 0 < usedW raws mid cfg.metrics := usedW_pos raws mid cfg.metrics hwm hs hpos hav
    rw [hkey, if_pos hm]
  · rintro hno ⟨s, hs, hpos, hav⟩
    have hm0 : usedW raws mid cfg.metrics = 0 := hzero cfg.metrics hwm hno
    have hf : 0 < usedW raws mid cfg.fallbacks :=
      usedW_pos raws mid cfg.fallbacks hwf hs hpos hav
    rw [hkey, hm0, if_neg (lt_irrefl 0), if_pos hf]
  · intro hno hnf
    have hm0 : usedW raws mid cfg.metrics = 0 := hzero cfg.metrics hwm hno
    have hf0 : usedW raws mid cfg.fallbacks = 0 := hzero cfg.fallbacks hwf hnf
    rw [hkey, hm0, hf0, if_neg (lt_irrefl 0), if_neg (lt_irrefl 0)]
  · intro h
    unfold Standard.fcm
    rw [h]
    rfl

/-- Witness for C1 (amended): a one-category standard whose single
primary metric (weight 1, no transform, no scale) is available for
model 1, scored through all three branches at concrete inputs. -/
theorem score_model_category_amended_witness :
    score_category (fun x => x) [] [(1, "k", 3/4)] 1
        ⟨[⟨"k", some "higher", 1, none, none⟩], []⟩
        (Standard.fcm ⟨"s", [("c", ⟨[⟨"k", some "higher", 1, none, none⟩], []⟩)], none⟩) =
      .ok (1/2, 1, ⟨[⟨"k", 3/4, 1/2, 1, none⟩], none, false⟩) := by
  have h := (score_model_category_amended (fun x => x) [] [(1, "k", 3/4)] 1
    ⟨"s", [("c", ⟨[⟨"k", some "higher", 1, none, none⟩], []⟩)], none⟩
    "c" ⟨[⟨"k", some "higher", 1, none, none⟩], []⟩
    (by simp) (by decide) (by decide) (by norm_num [Standard.fcm]) (by norm_num [Standard.fcm])).1
    ⟨⟨"k", some "higher", 1, none, none⟩, by simp, by norm_num, rfl⟩
  rw [h]
  simp [wsum, usedW, usedList, totalW, normOf, usedEntryOf, avail, model_metric,
    lookupKey, List.filter, List.map, List.find?]

/-- Replaying the same batch of scores upserts is a no-op. -/
theorem applyWrites_idem (f : ScoreKey → Option ScoreVal) (ws : List (ScoreKey × ScoreVal)) :
    applyWrites (applyWrites f ws) ws = applyWrites f ws := by
  funext k
  rw [applyWrites_apply, applyWrites_apply]
  cases h : findLast ws k
  · rfl
  · rfl

/-- A second `get_or_create_standard` with the same config finds the
row inserted (or found) by the first and changes nothing. -/
theorem get_or_create_standard_second (standards : List (Nat × Standard)) (std : Standard) :
    get_or_create_standard (get_or_create_standard standards std).1 std =
      get_or_create_standard standards std := by
  unfold get_or_create_standard
  rcases hfind : standards.find? (fun r => r.2 == std) with _ | r
  · rw [hfind]
    dsimp only
    rw [List.find?_append, hfind]
    simp
  · rw [hfind]
    dsimp only
    rw [hfind]

/-- C5: rescoring is idempotent: a successful `rescore_all` followed by
a second run with unchanged models, raw metrics, standard and
benchmark-scale inputs returns the same store (every scores row
identical, timestamps not modelled) and the same upsert count. -/
theorem rescore_all_idempotent (L : ℚ → ℚ) (aMM : Option (ℚ × ℚ))
    (bMM : String → Option (ℚ × ℚ)) (db : DB) (std : Standard) (db1 : DB) (n : Nat)
    (h : rescore_all L aMM bMM db std = (db1, .ok n)) :
    rescore_all L aMM bMM db1 std = (db1, .ok n) := by
  unfold rescore_all at h ⊢
  rcases hnp : norm_params_all L aMM bMM db.raw_metrics std with e | np
  · rw [hnp] at h
    simp at h
  rw [hnp] at h
  dsimp only at h
  rcases hws : score_writes L np db.raw_metrics
      (get_or_create_standard db.standards std).2 std db.models with e | ws
  · rw [hws] at h
    simp at h
  rw [hws] at h
  dsimp only at h
  have hdb : db1 = { db with standards := (get_or_create_standard db.standards std).1,
                             scores := applyWrites db.scores ws } :=
    (congrArg Prod.fst h).symm
  have hn : n = ws.length := by
    have h2 := congrArg Prod.snd h
    simp at h2
    exact h2.symm
  subst hdb
  subst hn
  dsimp only
  rw [hnp]
  dsimp only
  rw [get_or_create_standard_second, hws]
  dsimp only
  rw [applyWrites_idem]

/-- Witness for C5: a second rescore of the post-state of a first
rescore over an empty model table returns the post-state unchanged. -/
theorem rescore_all_idempotent_witness :
    rescore_all (fun x => x) none (fun _ => none)
        ⟨[], [], [(1, ⟨"s", [("c", ⟨[], []⟩)], none⟩)], fun _ => none⟩
        ⟨"s", [("c", ⟨[], []⟩)], none⟩ =
      (⟨[], [], [(1, ⟨"s", [("c", ⟨[], []⟩)], none⟩)], fun _ => none⟩, .ok 0) :=
  rescore_all_idempotent (fun x => x) none (fun _ => none)
    ⟨[], [], [], fun _ => none⟩ ⟨"s", [("c", ⟨[], []⟩)], none⟩
    ⟨[], [], [(1, ⟨"s", [("c", ⟨[], []⟩)], none⟩)], fun _ => none⟩ 0 rfl

/-- Counterexample to C6: with a standard declaring the unknown
transform `"bogus"` on a fixed-scale metric, `rescore_all` on an empty
store raises the configuration error — but only after
`get_or_create_standard` has inserted (and committed) the standards
row, so a write does occur during the failing run. -/
theorem rescore_all_unknown_transform_counterexample :
    (rescore_all (fun x => x) none (fun _ => none) ⟨[], [], [], fun _ => none⟩
        ⟨"b", [("c", ⟨[⟨"k", some "higher", 1, some "bogus", some (.mm 0 1)⟩], []⟩)], none⟩).2 =
      .error "Unknown transform: bogus" ∧
    (rescore_all (fun x => x) none (fun _ => none) ⟨[], [], [], fun _ => none⟩
        ⟨"b", [("c", ⟨[⟨"k", some "higher", 1, some "bogus", some (.mm 0 1)⟩], []⟩)], none⟩).1.standards =
      [(1, ⟨"b", [("c", ⟨[⟨"k", some "higher", 1, some "bogus", some (.mm 0 1)⟩], []⟩)], none⟩)] := by
  exact ⟨rfl, rfl⟩

/-- C6 (amended): when `rescore_all` terminates with a configuration
error (e.g. an unknown transform name reached while computing
normalization parameters), no scores, raw-metrics or models write
survives the run — but the standards row for the active standard has
already been inserted and committed before the error. -/
theorem rescore_all_error_no_writes (L : ℚ → ℚ) (aMM : Option (ℚ × ℚ))
    (bMM : String → Option (ℚ × ℚ)) (db : DB) (std : Standard) (e : String)
    (h : (rescore_all L aMM bMM db std).2 = .error e) :
    (rescore_all L aMM bMM db std).1.scores = db.scores ∧
    (rescore_all L aMM bMM db std).1.raw_metrics = db.raw_metrics ∧
    (rescore_all L aMM bMM db std).1.models = db.models ∧
    (rescore_all L aMM bMM db std).1.standards =
      (get_or_create_standard db.standards std).1 := by
  unfold rescore_all at h ⊢
  rcases hnp : norm_params_all L aMM bMM db.raw_metrics std with e' | np
  · exact ⟨rfl, rfl, rfl, rfl⟩
  rw [hnp] at h
  dsimp only at h ⊢
  rcases hws : score_writes L np db.raw_metrics
      (get_or_create_standard db.standards std).2 std db.models with e' | ws
  · exact ⟨rfl, rfl, rfl, rfl⟩
  · rw [hws] at h
    simp at h

/-- Witness for C6 (amended) at the unknown-transform scenario. -/
theorem rescore_all_error_no_writes_witness :
    (rescore_all (fun x => x) none (fun _ => none) ⟨[], [], [], fun _ => none⟩
        ⟨"b", [("c", ⟨[⟨"q", some "higher", 1, some "nope", some (.mm 0 1)⟩], []⟩)], none⟩).1.scores =
      (fun _ => none) ∧
    (rescore_all (fun x => x) none (fun _ => none) ⟨[], [], [], fun _ => none⟩
        ⟨"b", [("c", ⟨[⟨"q", some "higher", 1, some "nope", some (.mm 0 1)⟩], []⟩)], none⟩).1.raw_metrics =
      [] := by
  have h := rescore_all_error_no_writes (fun x => x) none (fun _ => none)
    ⟨[], [], [], fun _ => none⟩
    ⟨"b", [("c", ⟨[⟨"q", some "higher", 1, some "nope", some (.mm 0 1)⟩], []⟩)], none⟩
    "Unknown transform: nope" rfl
  exact ⟨h.1, h.2.1⟩

/-- Counterexample to C7: the invalidation rule fires (candidate's
`hf_repo_id` equals its registry id, metadata fetch 404s), yet because
the autolink step then attaches a different repo (`org/y`) with
OpenLeaderboard results available, OpenLeaderboard metrics *are*
ingested in that run and the stored `hf_repo_id` ends non-null. -/
theorem hf_invalidation_counterexample :
    hf_invalidation_cond (fun _ => false)
      ⟨"m", "openrouter", "pm", some "prov/x", some "prov/x"⟩ = true ∧
    (hf_linkage (fun _ => false) (some "org/y") none
        (fun r => if r == "org/y" then some [("openllm_gpqa_acc_norm", 1/2)] else none)
        ⟨[], [], [], fun _ => none⟩
        ⟨"m", "openrouter", "pm", some "prov/x", some "prov/x"⟩).1.raw_metrics =
      [(1, "openllm_gpqa_acc_norm", 1/2)] ∧
    (hf_linkage (fun _ => false) (some "org/y") none
        (fun r => if r == "org/y" then some [("openllm_gpqa_acc_norm", 1/2)] else none)
        ⟨[], [], [], fun _ => none⟩
        ⟨"m", "openrouter", "pm", some "prov/x", some "prov/x"⟩).1.models.map
      (fun m => m.hf_repo_id) = [some "org/y"] := by
  exact ⟨rfl, rfl, rfl⟩

theorem set_model_hf_id {models : List ModelRow} {mid : Nat} {v : Option String}
    {r : ModelRow} (h : r ∈ set_model_hf_repo_id models mid v) (hid : r.id = mid) :
    r.hf_repo_id = v := by
  obtain ⟨r0, hr0, he⟩ := List.mem_map.mp h
  by_cases hc : r0.id = mid
  · rw [← he]
    simp [hc]
  · have : (r0.id == mid) = false := by simp [hc]
    rw [this] at he
    simp at he
    rw [← he] at hid
    exact absurd hid hc

theorem set_model_hf_null {models : List ModelRow} {mid : Nat} {v : Option String}
    {r : ModelRow} (h : r ∈ set_model_hf_repo_id models mid v)
    (hn : r.hf_repo_id = none) :
    (v = none ∧ r.id = mid) ∨ (∃ r0 ∈ models, r0.id = r.id ∧ r0.hf_repo_id = none) := by
  obtain ⟨r0, hr0, he⟩ := List.mem_map.mp h
  by_cases hc : r0.id = mid
  · left
    have he' : r = { r0 with hf_repo_id := v } := by rw [← he]; simp [hc]
    rw [he'] at hn ⊢
    exact ⟨hn, hc⟩
  · right
    have : (r0.id == mid) = false := by simp [hc]
    rw [this] at he
    simp at he
    rw [← he] at hn ⊢
    exact ⟨r0, hr0, rfl, hn⟩

theorem upsert_model_null {models : List ModelRow} {name prov pid : String}
    {oro hfo : Option String} {r : ModelRow}
    (h : r ∈ (upsert_model models name prov pid oro hfo).1)
    (hn : r.hf_repo_id = none) :
    (∃ r0 ∈ models, r0.id = r.id ∧ r0.hf_repo_id = none) ∨
    (hfo = none ∧ r.id = (upsert_model models name prov pid oro hfo).2) := by
  unfold upsert_model at h ⊢
  rcases hfind : models.find? (fun m => m.provider == prov && m.provider_id == pid)
      with _ | m'
  · rw [hfind] at h
    dsimp only at h
    rcases List.mem_append.mp h with h' | h'
    · exact Or.inl ⟨r, h', rfl, hn⟩
    · simp at h'
      rw [h'] at hn ⊢
      right
      rw [hfind]
      exact ⟨hn, rfl⟩
  · rw [hfind] at h
    dsimp only at h
    obtain ⟨r0, hr0, he⟩ := List.mem_map.mp h
    by_cases hc : (r0.provider == prov && r0.provider_id == pid) = true
    · rw [if_pos hc] at he
      rw [← he] at hn
      simp only at hn
      left
      refine ⟨r0, hr0, ?_, ?_⟩
      · rw [← he]
      · rcases hfo with _ | b
        · simpa using hn
        · simp at hn
    · rw [if_neg hc] at he
      rw [← he] at hn ⊢
      exact Or.inl ⟨r0, hr0, rfl, hn⟩

theorem hf_autolink_step_none (alO alM : Option String) (cand : Candidate)
    (models : List ModelRow) (mid : Nat)
    (hno : cand.provider ≠ "openrouter" ∨ (alO = none ∧ alM = none)) :
    hf_autolink_step alO alM cand none models mid = (none, models) := by
  unfold hf_autolink_step
  rcases hno with hp | ⟨h1, h2⟩
  · have : (cand.provider == "openrouter") = false := by simp [hp]
    simp [this]
  · subst h1
    subst h2
    by_cases hc : (Option.isNone (none : Option String) && cand.openrouter_id.isSome &&
        cand.provider == "openrouter") = true <;> simp [hc]

/-- C7 (amended): a later upsert of the same `(provider, provider_id)`
passing null for `openrouter_id` / `hf_repo_id` leaves the stored
values unchanged; when the HF-invalidation rule fires and the autolink
step attaches nothing (non-registry provider, or no autolink match),
the model's `hf_repo_id` ends null and no OpenLeaderboard metrics are
ingested in that run; and when the invalidation rule does not fire, no
row's `hf_repo_id` is set back to null — a null `hf_repo_id` after the
run was already null before it (or belongs to the freshly inserted row
of a candidate that carried none).  (When the autolink step does
attach a new repo after an invalidation, OpenLeaderboard metrics for
that repo may be ingested, as the counterexample shows.) -/
theorem hf_linkage_amended :
    (∀ (models : List ModelRow) (name prov pid : String) (r : ModelRow),
        r ∈ models → r.provider = prov → r.provider_id = pid →
        { r with display_name := name } ∈ (upsert_model models name prov pid none none).1) ∧
    (∀ (hfMeta : String → Bool) (alO alM : Option String)
        (openllm : String → Option (List (String × ℚ))) (db : DB) (cand : Candidate),
        hf_invalidation_cond hfMeta cand = true →
        (cand.provider ≠ "openrouter" ∨ (alO = none ∧ alM = none)) →
        (hf_linkage hfMeta alO alM openllm db cand).1.raw_metrics = db.raw_metrics ∧
        (∀ r ∈ (hf_linkage hfMeta alO alM openllm db cand).1.models,
          r.id = (hf_linkage hfMeta alO alM openllm db cand).2 → r.hf_repo_id = none)) ∧
    (∀ (hfMeta : String → Bool) (alO alM : Option String)
        (openllm : String → Option (List (String × ℚ))) (db : DB) (cand : Candidate),
        hf_invalidation_cond hfMeta cand = false →
        ∀ r ∈ (hf_linkage hfMeta alO alM openllm db cand).1.models,
          r.hf_repo_id = none →
          (∃ r0 ∈ db.models, r0.id = r.id ∧ r0.hf_repo_id = none) ∨
          (cand.hf_repo_id = none ∧ r.id = (hf_linkage hfMeta alO alM openllm db cand).2)) := by
  refine ⟨?_, ?_, ?_⟩
  · intro models name prov pid r hr hp hpid
    unfold upsert_model
    rcases hfind : models.find? (fun m => m.provider == prov && m.provider_id == pid)
        with _ | m'
    · exfalso
      have := List.find?_eq_none.mp hfind r hr
      simp [hp, hpid] at this
    · rw [hfind]
      dsimp only
      refine List.mem_map.mpr ⟨r, hr, ?_⟩
      have hc : (r.provider == prov && r.provider_id == pid) = true := by simp [hp, hpid]
      rw [if_pos hc]
      simp
  · intro hfMeta alO alM openllm db cand hinv hno
    unfold hf_linkage
    simp only [hf_invalidation_step, hinv, if_true]
    rw [hf_autolink_step_none alO alM cand _ _ hno]
    refine ⟨rfl, ?_⟩
    intro r hr hid
    exact set_model_hf_id hr hid
  · intro hfMeta alO alM openllm db cand hinv r hr hn
    unfold hf_linkage at hr ⊢
    simp only [hf_invalidation_step, hinv, Bool.false_eq_true, if_false] at hr ⊢
    rcases hal : hf_autolink_step alO alM cand cand.hf_repo_id
        (upsert_model db.models cand.name cand.provider cand.provider_id
          cand.openrouter_id cand.hf_repo_id).1
        (upsert_model db.models cand.name cand.provider cand.provider_id
          cand.openrouter_id cand.hf_repo_id).2 with ⟨hf2, models3⟩
    rw [hal] at hr
    dsimp only at hr ⊢
    have hm3 : r ∈ models3 → r.hf_repo_id = none →
        (∃ r0 ∈ db.models, r0.id = r.id ∧ r0.hf_repo_id = none) ∨
        (cand.hf_repo_id = none ∧
          r.id = (upsert_model db.models cand.name cand.provider cand.provider_id
            cand.openrouter_id cand.hf_repo_id).2) := by
      intro hr3 hn3
      unfold hf_autolink_step at hal
      by_cases hc : (cand.hf_repo_id.isNone && cand.openrouter_id.isSome &&
          cand.provider == "openrouter") = true
      · have hcn : cand.hf_repo_id = none := by
          have := hc
          simp only [Bool.and_eq_true] at this
          exact Option.isNone_iff_eq_none.mp this.1.1
        rw [if_pos hc] at hal
        rcases alO with _ | b
        · rcases alM with _ | b
          · simp at hal
            rw [← hal.2] at hr3
            exact (upsert_model_null hr3 hn3).imp id (fun h => ⟨hcn, h.2⟩)
          · simp at hal
            rw [← hal.2] at hr3
            rcases set_model_hf_null hr3 hn3 with ⟨hv, _⟩ | ⟨r0, hr0, hid, h0⟩
            · cases hv
            · exact (upsert_model_null hr0 h0).imp
                (fun ⟨r1, h1, hid1, hn1⟩ => ⟨r1, h1, hid1.trans hid, hn1⟩)
                (fun h => ⟨hcn, hid ▸ h.2⟩)
        · simp at hal
          rw [← hal.2] at hr3
          rcases set_model_hf_null hr3 hn3 with ⟨hv, _⟩ | ⟨r0, hr0, hid, h0⟩
          · cases hv
          · exact (upsert_model_null hr0 h0).imp
              (fun ⟨r1, h1, hid1, hn1⟩ => ⟨r1, h1, hid1.trans hid, hn1⟩)
              (fun h => ⟨hcn, hid ▸ h.2⟩)
      · rw [if_neg hc] at hal
        have : models3 = (upsert_model db.models cand.name cand.provider
            cand.provider_id cand.openrouter_id cand.hf_repo_id).1 := by
          have := congrArg Prod.snd hal
          exact this.symm
        rw [this] at hr3
        rcases upsert_model_null hr3 hn3 with h | h
        · exact Or.inl h
        · exact Or.inr h
    exact hm3 hr hn

/-- Witness for C7 (amended) at concrete inputs: a stored row keeps its
non-null ids under a null upsert, and an invalidated candidate with no
autolink match ends with a null `hf_repo_id` and untouched raw
metrics. -/
theorem hf_linkage_amended_witness :
    ({ id := 1, display_name := "n", provider := "p", provider_id := "x",
       openrouter_id := some "o", hf_repo_id := some "h" } : ModelRow) ∈
      (upsert_model [⟨1, "m", "p", "x", some "o", some "h"⟩] "n" "p" "x" none none).1 ∧
    (hf_linkage (fun _ => false) none none (fun _ => none)
        ⟨[], [], [], fun _ => none⟩
        ⟨"m", "openrouter", "pm", some "prov/x", some "prov/x"⟩).1.raw_metrics = [] ∧
    (∀ r ∈ (hf_linkage (fun _ => false) none none (fun _ => none)
        ⟨[], [], [], fun _ => none⟩
        ⟨"m", "openrouter", "pm", some "prov/x", some "prov/x"⟩).1.models,
      r.id = (hf_linkage (fun _ => false) none none (fun _ => none)
        ⟨[], [], [], fun _ => none⟩
        ⟨"m", "openrouter", "pm", some "prov/x", some "prov/x"⟩).2 →
      r.hf_repo_id = none) := by
  refine ⟨?_, ?_⟩
  · exact hf_linkage_amended.1 [⟨1, "m", "p", "x", some "o", some "h"⟩] "n" "p" "x"
      ⟨1, "m", "p", "x", some "o", some "h"⟩ (List.mem_singleton.mpr rfl) rfl rfl
  · exact hf_linkage_amended.2.1 (fun _ => false) none none (fun _ => none)
      ⟨[], [], [], fun _ => none⟩
      ⟨"m", "openrouter", "pm", some "prov/x", some "prov/x"⟩ rfl (Or.inr ⟨rfl, rfl⟩)

/-- C3: `cost_usd_per_1m_mixed` is always normalized against the
cohort-derived min/max of the transformed raw values —
`compute_norm_params` skips the benchmark override and the declared
fixed scale for that key — and for the store `db3` with exactly three
models whose costs are `0.5`, `5.0`, `50.0`, under the default
standard's cost category (transform `log1p`, better `lower`, the
category returned by `find?` over `DEFAULT_STANDARD.categories`) the
cost scores are `1`, `1 - (log1p 5 - log1p 0.5)/(log1p 50 - log1p 0.5)`
and `0`, so `score[0.5] > score[5.0] > score[50.0]` and
`score[0.5] = 1 - score[50.0]` within `1e-9`.  The hypotheses record
the strict monotonicity of `log1p` at the three points. -/
theorem cost_cohort_scenario (L : ℚ → ℚ)
    (h1 : L (1/2) < L 5) (h2 : L 5 < L 50) (h3 : eps12 ≤ L 50 - L (1/2)) :
    (∀ (aMM : Option (ℚ × ℚ)) (bMM : String → Option (ℚ × ℚ))
        (raws : List (Nat × String × ℚ)) (spec : MetricSpec),
        spec.key = "cost_usd_per_1m_mixed" →
        compute_norm_params L aMM bMM raws spec = cohort_params L raws spec) ∧
    (DEFAULT_STANDARD.categories.find? (fun c => c.1 == "cost")).map (fun c => c.2) =
      some ⟨[⟨"cost_usd_per_1m_mixed", some "lower", 1, some "log1p", some (.mm (1/100) 100)⟩],
            [⟨"cost_is_local_proxy", some "higher", 1, none, some (.name "binary")⟩]⟩ ∧
    compute_norm_params L none (fun _ => none) db3.raw_metrics
        ⟨"cost_usd_per_1m_mixed", some "lower", 1, some "log1p", some (.mm (1/100) 100)⟩ =
      .ok (some (L (1/2), L 50)) ∧
    (score_category L [("cost_usd_per_1m_mixed", (L (1/2), L 50))] db3.raw_metrics 1
        ⟨[⟨"cost_usd_per_1m_mixed", some "lower", 1, some "log1p", some (.mm (1/100) 100)⟩],
         [⟨"cost_is_local_proxy", some "higher", 1, none, some (.name "binary")⟩]⟩
        DEFAULT_STANDARD.fcm).map (fun v => v.1) = .ok 1 ∧
    (score_category L [("cost_usd_per_1m_mixed", (L (1/2), L 50))] db3.raw_metrics 2
        ⟨[⟨"cost_usd_per_1m_mixed", some "lower", 1, some "log1p", some (.mm (1/100) 100)⟩],
         [⟨"cost_is_local_proxy", some "higher", 1, none, some (.name "binary")⟩]⟩
        DEFAULT_STANDARD.fcm).map (fun v => v.1) =
      .ok (1 - (L 5 - L (1/2)) / (L 50 - L (1/2))) ∧
    (score_category L [("cost_usd_per_1m_mixed", (L (1/2), L 50))] db3.raw_metrics 3
        ⟨[⟨"cost_usd_per_1m_mixed", some "lower", 1, some "log1p", some (.mm (1/100) 100)⟩],
         [⟨"cost_is_local_proxy", some "higher", 1, none, some (.name "binary")⟩]⟩
        DEFAULT_STANDARD.fcm).map (fun v => v.1) = .ok 0 ∧
    (1 - (L 5 - L (1/2)) / (L 50 - L (1/2)) < 1) ∧
    (0 < 1 - (L 5 - L (1/2)) / (L 50 - L (1/2))) ∧
    |(1 : ℚ) - (1 - 0)| ≤ 1/1000000000 := by
  rw [show (1/2 : ℚ) = 2⁻¹ from one_div 2] at h1 h3 ⊢
  have hd : 0 < L 50 - L 2⁻¹ := by linarith
  have habs : ¬ (|L 50 - L 2⁻¹| < eps12) := by
    rw [abs_of_pos hd]
    exact not_lt.mpr h3
  have hr0 : 0 ≤ (L 5 - L 2⁻¹) / (L 50 - L 2⁻¹) := div_nonneg (by linarith) hd.le
  have hr1 : (L 5 - L 2⁻¹) / (L 50 - L 2⁻¹) ≤ 1 := (div_le_one hd).mpr (by linarith)
  have hrpos : 0 < (L 5 - L 2⁻¹) / (L 50 - L 2⁻¹) := div_pos (by linarith) hd
  have hrlt : (L 5 - L 2⁻¹) / (L 50 - L 2⁻¹) < 1 := (div_lt_one hd).mpr (by linarith)
  have hds : (L 50 - L 2⁻¹) / (L 50 - L 2⁻¹) = 1 := div_self hd.ne'
  have hm1 : min (L 2⁻¹) (L 5) = L 2⁻¹ := min_eq_left h1.le
  have hm2 : min (L 2⁻¹) (L 50) = L 2⁻¹ := min_eq_left (h1.trans h2).le
  have hx1 : max (L 2⁻¹) (L 5) = L 5 := max_eq_right h1.le
  have hx2 : max (L 5) (L 50) = L 50 := max_eq_right h2.le
  have ha : max (0:ℚ) 2⁻¹ = 2⁻¹ := by norm_num
  have hb : max (0:ℚ) 5 = 5 := by norm_num
  have hc : max (0:ℚ) 50 = 50 := by norm_num
  have hn10 : ¬ ((1:ℚ) ≤ 0) := by norm_num
  have hcl0 : clamp01 0 = 0 := by norm_num [clamp01]
  have hcl1 : clamp01 1 = 1 := by norm_num [clamp01]
  have hclr : clamp01 ((L 5 - L 2⁻¹) / (L 50 - L 2⁻¹)) =
      (L 5 - L 2⁻¹) / (L 50 - L 2⁻¹) := clamp01_eq_self hr0 hr1
  have hcl1mr : clamp01 (1 - (L 5 - L 2⁻¹) / (L 50 - L 2⁻¹)) =
      1 - (L 5 - L 2⁻¹) / (L 50 - L 2⁻¹) :=
    clamp01_eq_self (by linarith) (by linarith)
  refine ⟨fun aMM bMM raws spec hk => by
    unfold compute_norm_params
    rw [if_pos hk]
    rfl, by rfl, ?_, ?_, ?_, ?_, by linarith, by linarith, by norm_num⟩
  · simp [compute_norm_params, cohort_params, benchmark_scale_override, fixed_scale_params,
      get_metric_values, transform_value, db3, listMin, listMax, Bind.bind, Except.bind,
      pure, Except.pure, List.mapM, List.mapM.loop, hm1, hm2, hx1, hx2, ha, hb, hc, habs]
  · simp [score_category, compute_from_specs, cfs_go, normContrib, normalize_value,
      transform_value, model_metric, lookupKey, db3, Standard.fcm, DEFAULT_STANDARD,
      Bind.bind, Except.bind, pure, Except.pure, Except.map, List.find?,
      ha, hb, hc, habs, hds, hclr, hcl1mr, hcl0, hcl1, hn10]
  · simp [score_category, compute_from_specs, cfs_go, normContrib, normalize_value,
      transform_value, model_metric, lookupKey, db3, Standard.fcm, DEFAULT_STANDARD,
      Bind.bind, Except.bind, pure, Except.pure, Except.map, List.find?,
      ha, hb, hc, habs, hds, hclr, hcl1mr, hcl0, hcl1, hn10]
  · simp [score_category, compute_from_specs, cfs_go, normContrib, normalize_value,
      transform_value, model_metric, lookupKey, db3, Standard.fcm, DEFAULT_STANDARD,
      Bind.bind, Except.bind, pure, Except.pure, Except.map, List.find?,
      ha, hb, hc, habs, hds, hclr, hcl1mr, hcl0, hcl1, hn10]

/-- Witness for C3 with `log1p` interpreted by the identity (which is
strictly monotone at the three cost points): cohort-derived parameters
and the extreme cost scores `1` and `0`. -/
theorem cost_cohort_scenario_witness :
    compute_norm_params (fun x => x) none (fun _ => none) db3.raw_metrics
        ⟨"cost_usd_per_1m_mixed", some "lower", 1, some "log1p", some (.mm (1/100) 100)⟩ =
      .ok (some ((1:ℚ)/2, 50)) ∧
    (score_category (fun x => x) [("cost_usd_per_1m_mixed", ((1:ℚ)/2, 50))]
        db3.raw_metrics 1
        ⟨[⟨"cost_usd_per_1m_mixed", some "lower", 1, some "log1p", some (.mm (1/100) 100)⟩],
         [⟨"cost_is_local_proxy", some "higher", 1, none, some (.name "binary")⟩]⟩
        DEFAULT_STANDARD.fcm).map (fun v => v.1) = .ok 1 ∧
    (score_category (fun x => x) [("cost_usd_per_1m_mixed", ((1:ℚ)/2, 50))]
        db3.raw_metrics 3
        ⟨[⟨"cost_usd_per_1m_mixed", some "lower", 1, some "log1p", some (.mm (1/100) 100)⟩],
         [⟨"cost_is_local_proxy", some "higher", 1, none, some (.name "binary")⟩]⟩
        DEFAULT_STANDARD.fcm).map (fun v => v.1) = .ok 0 := by
  have h := cost_cohort_scenario (fun x => x) (by norm_num) (by norm_num)
    (by norm_num [eps12])
  exact ⟨h.2.2.1, h.2.2.2.1, h.2.2.2.2.2.1⟩

end ModelRater
